import Mathlib

/-!
Verification development for the numio expression engine
(lexer, parser, value model, evaluator, rate cache).

Modelling conventions, applied uniformly:

* Go `float64` is modelled by `ℚ`.  All arithmetic the claims depend on
  (sums, products, reciprocals, comparisons with zero) is exact in both
  domains; claims about floating-point rounding are out of scope.
  The transcendental helpers of `math` (`Sqrt`, `Log`, `Exp`, ...) have no
  rational counterpart; they are modelled by explicitly marked stand-ins
  whose values no theorem depends on.
* Go strings processed by the lexer are modelled as `List Char`; byte
  positions coincide with character positions on the ASCII inputs all
  theorems use, so the UTF-8 decoding layer (`decodeRune`) collapses to
  the identity at this granularity.
* Go maps are modelled as association lists with overwrite-on-insert
  (`put` replaces the binding of an existing key in place, otherwise
  appends), so the list holds exactly the map's current bindings.
  Go's map iteration order is unspecified; the model iterates in
  first-insertion order.  Every theorem below is order-independent.
* `strings.ToUpper` / `strings.ToLower` / `unicode.IsLetter` are modelled
  by structural ASCII versions (`asciiUpper` etc.), which agree with Go
  on the ASCII data the theorems use.
* Mutation of the Go `Context` / `RateCache` structs is modelled by
  explicit state passing: a method that mutates its receiver becomes a
  function returning the updated record.
* I/O-dependent behaviour (file cache loading, clock-based TTL) is out of
  the shallow embedding; `cache.New` is modelled as the in-memory
  construction (`loadDefaults`) without the `LoadFromFile` disk probe.
-/

namespace Numio

/-- Decimal precision domain: Go float64 modelled as rational numbers. -/
abbrev F := ℚ

/-! ## Type descriptors (internal/types), from currency.go / unit.go / metal.go / crypto.go -/

/-- Go struct `types.Currency` (currency.go). -/
structure Currency where
  code : String
  symbol : String
  name : String
  aliases : List String
  symbolAfter : Bool := false
deriving DecidableEq, Repr

/-- Go enum `types.UnitType` (unit.go). -/
inductive UnitType where
  | length | weight | time | temperature | data | area | volume | speed
deriving DecidableEq, Repr

/-- Go struct `types.Unit` (unit.go). -/
structure Unit where
  code : String
  symbol : String
  name : String
  plural : String
  type : UnitType
  aliases : List String
  toBase : F
  fromBaseAdd : F := 0
  isBase : Bool := false
deriving DecidableEq, Repr

/-- Go struct `types.Metal` (metal.go). -/
structure Metal where
  code : String
  symbol : String
  name : String
  aliases : List String
  unitName : String
  unitLabel : String
deriving DecidableEq, Repr

/-- Go struct `types.Crypto` (crypto.go). -/
structure Crypto where
  code : String
  symbol : String
  name : String
  aliases : List String
  coingeckoID : String
  decimals : Int
deriving DecidableEq, Repr

/-! ## Association lists modelling Go maps -/

/-- Go map assignment `m[k] = v`: overwrite the existing binding in place,
otherwise append.  The resulting list holds exactly the map's bindings. -/
def put {α β : Type} [DecidableEq α] (l : List (α × β)) (k : α) (v : β) :
    List (α × β) :=
  if l.any (fun p => p.1 = k) then
    l.map (fun p => if p.1 = k then (k, v) else p)
  else
    l ++ [(k, v)]

/-- Go map read `m[k]` (with its `ok` flag as `Option`). -/
def lookup {α β : Type} [DecidableEq α] (l : List (α × β)) (k : α) : Option β :=
  (l.find? (fun p => p.1 = k)).map (fun p => p.2)

/-! ## Registries (lookup tables), from currency.go / crypto.go / metal.go / unit.go -/

/-- Go `strings.ToUpper` restricted to ASCII (see the header note). -/
def asciiUpper (s : String) : String := String.mk (s.toList.map Char.toUpper)

/-- Go `strings.ToLower` restricted to ASCII (see the header note). -/
def asciiLower (s : String) : String := String.mk (s.toList.map Char.toLower)

/-- Go `unicode.IsSpace` restricted to the ASCII whitespace set. -/
def goIsSpace (c : Char) : Bool :=
  c = ' ' ∨ c = '\t' ∨ c = '\n' ∨ c = '\x0b' ∨ c = '\x0c' ∨ c = '\r'

/-- Go `strings.TrimSpace` (ASCII whitespace). -/
def goTrimSpace (s : String) : String :=
  String.mk (((s.toList.dropWhile goIsSpace).reverse.dropWhile goIsSpace).reverse)

/-- Go `strings.HasPrefix`. -/
def goStartsWith (s pre : String) : Bool := pre.toList.isPrefixOf s.toList


/-- Go `curatedCurrencies` (currency.go), in source order. -/
def curatedCurrencies : List Currency := [
  ⟨"USD", "$", "US Dollar", ["dollar", "dollars", "usd", "bucks", "buck"], false⟩,
  ⟨"EUR", "\u20ac", "Euro", ["euro", "euros", "eur"], false⟩,
  ⟨"GBP", "\u00a3", "British Pound", ["pound", "pounds", "gbp", "quid", "sterling"], false⟩,
  ⟨"JPY", "\u00a5", "Japanese Yen", ["yen", "jpy"], false⟩,
  ⟨"CHF", "CHF", "Swiss Franc", ["franc", "francs", "chf", "swiss franc", "swiss francs"], false⟩,
  ⟨"CAD", "C$", "Canadian Dollar", ["cad", "canadian dollar", "canadian dollars", "loonie"], false⟩,
  ⟨"MXN", "MX$", "Mexican Peso", ["mxn", "peso", "pesos", "mexican peso"], false⟩,
  ⟨"BRL", "R$", "Brazilian Real", ["brl", "real", "reais", "brazilian real"], false⟩,
  ⟨"ARS", "AR$", "Argentine Peso", ["ars", "argentine peso"], false⟩,
  ⟨"CLP", "CL$", "Chilean Peso", ["clp", "chilean peso"], false⟩,
  ⟨"COP", "CO$", "Colombian Peso", ["cop", "colombian peso"], false⟩,
  ⟨"RUB", "\u20bd", "Russian Ruble", ["rub", "ruble", "rubles", "rouble", "roubles"], true⟩,
  ⟨"UAH", "\u20b4", "Ukrainian Hryvnia", ["uah", "hryvnia", "hryvnias"], true⟩,
  ⟨"PLN", "z\u0142", "Polish Zloty", ["pln", "zloty", "zlotys", "z\u0142oty"], true⟩,
  ⟨"CZK", "K\u010d", "Czech Koruna", ["czk", "koruna", "korunas", "czech koruna"], false⟩,
  ⟨"SEK", "kr", "Swedish Krona", ["sek", "swedish krona", "swedish kronor"], false⟩,
  ⟨"NOK", "kr", "Norwegian Krone", ["nok", "norwegian krone", "norwegian kroner"], false⟩,
  ⟨"DKK", "kr", "Danish Krone", ["dkk", "danish krone", "danish kroner"], false⟩,
  ⟨"HUF", "Ft", "Hungarian Forint", ["huf", "forint", "forints"], false⟩,
  ⟨"RON", "lei", "Romanian Leu", ["ron", "leu", "lei"], false⟩,
  ⟨"TRY", "\u20ba", "Turkish Lira", ["try", "tl", "lira", "liras", "turkish lira", "turk lirasi"], true⟩,
  ⟨"ILS", "\u20aa", "Israeli Shekel", ["ils", "shekel", "shekels", "nis"], false⟩,
  ⟨"AED", "\u062f.\u0625", "UAE Dirham", ["aed", "dirham", "dirhams", "emirati dirham"], false⟩,
  ⟨"SAR", "\ufdfc", "Saudi Riyal", ["sar", "riyal", "riyals", "saudi riyal"], false⟩,
  ⟨"QAR", "\ufdfc", "Qatari Riyal", ["qar", "qatari riyal"], false⟩,
  ⟨"KWD", "\u062f.\u0643", "Kuwaiti Dinar", ["kwd", "kuwaiti dinar"], false⟩,
  ⟨"EGP", "E\u00a3", "Egyptian Pound", ["egp", "egyptian pound"], false⟩,
  ⟨"CNY", "\u00a5", "Chinese Yuan", ["cny", "yuan", "rmb", "renminbi", "chinese yuan"], false⟩,
  ⟨"HKD", "HK$", "Hong Kong Dollar", ["hkd", "hong kong dollar"], false⟩,
  ⟨"TWD", "NT$", "Taiwan Dollar", ["twd", "taiwan dollar", "nt dollar"], false⟩,
  ⟨"KRW", "\u20a9", "South Korean Won", ["krw", "won", "korean won"], false⟩,
  ⟨"INR", "\u20b9", "Indian Rupee", ["inr", "rupee", "rupees", "indian rupee"], false⟩,
  ⟨"PKR", "\u20a8", "Pakistani Rupee", ["pkr", "pakistani rupee"], false⟩,
  ⟨"BDT", "\u09f3", "Bangladeshi Taka", ["bdt", "taka", "bangladeshi taka"], false⟩,
  ⟨"SGD", "S$", "Singapore Dollar", ["sgd", "singapore dollar"], false⟩,
  ⟨"MYR", "RM", "Malaysian Ringgit", ["myr", "ringgit", "malaysian ringgit"], false⟩,
  ⟨"THB", "\u0e3f", "Thai Baht", ["thb", "baht", "thai baht"], false⟩,
  ⟨"IDR", "Rp", "Indonesian Rupiah", ["idr", "rupiah", "indonesian rupiah"], false⟩,
  ⟨"VND", "\u20ab", "Vietnamese Dong", ["vnd", "dong", "vietnamese dong"], false⟩,
  ⟨"PHP", "\u20b1", "Philippine Peso", ["php", "philippine peso"], false⟩,
  ⟨"AUD", "A$", "Australian Dollar", ["aud", "australian dollar", "australian dollars", "aussie dollar"], false⟩,
  ⟨"NZD", "NZ$", "New Zealand Dollar", ["nzd", "new zealand dollar", "kiwi dollar"], false⟩,
  ⟨"ZAR", "R", "South African Rand", ["zar", "rand", "south african rand"], false⟩,
  ⟨"NGN", "\u20a6", "Nigerian Naira", ["ngn", "naira", "nigerian naira"], false⟩,
  ⟨"KES", "KSh", "Kenyan Shilling", ["kes", "kenyan shilling"], false⟩]

/-- Go `curatedCryptos` (crypto.go), in source order. -/
def curatedCryptos : List Crypto := [
  ⟨"BTC", "\u20bf", "Bitcoin", ["bitcoin", "btc", "xbt", "satoshi", "sats"], "bitcoin", 8⟩,
  ⟨"ETH", "\u039e", "Ethereum", ["ethereum", "eth", "ether"], "ethereum", 6⟩,
  ⟨"USDT", "\u20ae", "Tether", ["tether", "usdt"], "tether", 2⟩,
  ⟨"USDC", "USDC", "USD Coin", ["usd coin", "usdc"], "usd-coin", 2⟩,
  ⟨"DAI", "DAI", "Dai", ["dai", "makerdao"], "dai", 2⟩,
  ⟨"BUSD", "BUSD", "Binance USD", ["binance usd", "busd"], "binance-usd", 2⟩,
  ⟨"BNB", "BNB", "BNB", ["bnb", "binance coin", "binance"], "binancecoin", 4⟩,
  ⟨"SOL", "\u25ce", "Solana", ["solana", "sol"], "solana", 4⟩,
  ⟨"XRP", "XRP", "XRP", ["xrp", "ripple"], "ripple", 4⟩,
  ⟨"ADA", "\u20b3", "Cardano", ["cardano", "ada"], "cardano", 4⟩,
  ⟨"DOGE", "\u00d0", "Dogecoin", ["dogecoin", "doge"], "dogecoin", 4⟩,
  ⟨"DOT", "DOT", "Polkadot", ["polkadot", "dot"], "polkadot", 4⟩,
  ⟨"MATIC", "MATIC", "Polygon", ["polygon", "matic"], "matic-network", 4⟩,
  ⟨"AVAX", "AVAX", "Avalanche", ["avalanche", "avax"], "avalanche-2", 4⟩,
  ⟨"LTC", "\u0141", "Litecoin", ["litecoin", "ltc"], "litecoin", 4⟩,
  ⟨"LINK", "LINK", "Chainlink", ["chainlink", "link"], "chainlink", 4⟩,
  ⟨"ATOM", "ATOM", "Cosmos", ["cosmos", "atom"], "cosmos", 4⟩,
  ⟨"UNI", "UNI", "Uniswap", ["uniswap", "uni"], "uniswap", 4⟩,
  ⟨"XLM", "XLM", "Stellar", ["stellar", "xlm", "lumens"], "stellar", 4⟩,
  ⟨"ALGO", "ALGO", "Algorand", ["algorand", "algo"], "algorand", 4⟩,
  ⟨"TON", "TON", "Toncoin", ["toncoin", "ton", "telegram"], "the-open-network", 4⟩,
  ⟨"AAVE", "AAVE", "Aave", ["aave"], "aave", 4⟩,
  ⟨"MKR", "MKR", "Maker", ["maker", "mkr"], "maker", 4⟩,
  ⟨"CRV", "CRV", "Curve", ["curve", "crv"], "curve-dao-token", 4⟩,
  ⟨"NEAR", "NEAR", "NEAR Protocol", ["near", "near protocol"], "near", 4⟩,
  ⟨"APT", "APT", "Aptos", ["aptos", "apt"], "aptos", 4⟩,
  ⟨"ARB", "ARB", "Arbitrum", ["arbitrum", "arb"], "arbitrum", 4⟩,
  ⟨"OP", "OP", "Optimism", ["optimism", "op"], "optimism", 4⟩,
  ⟨"SHIB", "SHIB", "Shiba Inu", ["shiba", "shib", "shiba inu"], "shiba-inu", 8⟩,
  ⟨"PEPE", "PEPE", "Pepe", ["pepe"], "pepe", 8⟩,
  ⟨"WIF", "WIF", "dogwifhat", ["dogwifhat", "wif"], "dogwifcoin", 4⟩,
  ⟨"BONK", "BONK", "Bonk", ["bonk"], "bonk", 8⟩]

/-- Go `curatedMetals` (metal.go), in source order. -/
def curatedMetals : List Metal := [
  ⟨"XAU", "Au", "Gold", ["gold", "au", "xau"], "oz", "per troy oz"⟩,
  ⟨"XAG", "Ag", "Silver", ["silver", "ag", "xag"], "oz", "per troy oz"⟩,
  ⟨"XPT", "Pt", "Platinum", ["platinum", "pt", "xpt"], "oz", "per troy oz"⟩,
  ⟨"XPD", "Pd", "Palladium", ["palladium", "pd", "xpd"], "oz", "per troy oz"⟩,
  ⟨"XCU", "Cu", "Copper", ["copper", "cu", "xcu"], "lb", "per pound"⟩,
  ⟨"XAL", "Al", "Aluminum", ["aluminum", "aluminium", "al", "xal"], "lb", "per pound"⟩,
  ⟨"XNI", "Ni", "Nickel", ["nickel", "ni", "xni"], "lb", "per pound"⟩,
  ⟨"XZN", "Zn", "Zinc", ["zinc", "zn", "xzn"], "lb", "per pound"⟩,
  ⟨"XPB", "Pb", "Lead", ["lead", "pb", "xpb"], "lb", "per pound"⟩,
  ⟨"XSN", "Sn", "Tin", ["tin", "sn", "xsn"], "lb", "per pound"⟩]

/-- Go `curatedUnits` (unit.go), in source order. -/
def curatedUnits : List Unit := [
  ⟨"m", "m", "meter", "meters", .length, ["meter", "meters", "metre", "metres"], 1.0, 0, true⟩,
  ⟨"km", "km", "kilometer", "kilometers", .length, ["kilometer", "kilometers", "kilometre", "kilometres"], 1000.0, 0, false⟩,
  ⟨"cm", "cm", "centimeter", "centimeters", .length, ["centimeter", "centimeters", "centimetre", "centimetres"], 0.01, 0, false⟩,
  ⟨"mm", "mm", "millimeter", "millimeters", .length, ["millimeter", "millimeters", "millimetre", "millimetres"], 0.001, 0, false⟩,
  ⟨"mi", "mi", "mile", "miles", .length, ["mile", "miles"], 1609.344, 0, false⟩,
  ⟨"yd", "yd", "yard", "yards", .length, ["yard", "yards"], 0.9144, 0, false⟩,
  ⟨"ft", "ft", "foot", "feet", .length, ["foot", "feet"], 0.3048, 0, false⟩,
  ⟨"in", "in", "inch", "inches", .length, ["inch", "inches"], 0.0254, 0, false⟩,
  ⟨"nm", "nm", "nautical mile", "nautical miles", .length, ["nautical mile", "nautical miles", "nmi"], 1852.0, 0, false⟩,
  ⟨"g", "g", "gram", "grams", .weight, ["gram", "grams"], 1.0, 0, true⟩,
  ⟨"kg", "kg", "kilogram", "kilograms", .weight, ["kilogram", "kilograms", "kilo", "kilos"], 1000.0, 0, false⟩,
  ⟨"mg", "mg", "milligram", "milligrams", .weight, ["milligram", "milligrams"], 0.001, 0, false⟩,
  ⟨"t", "t", "metric ton", "metric tons", .weight, ["ton", "tons", "tonne", "tonnes", "metric ton", "metric tons"], 1000000.0, 0, false⟩,
  ⟨"lb", "lb", "pound", "pounds", .weight, ["pound", "pounds", "lbs"], 453.592, 0, false⟩,
  ⟨"oz", "oz", "ounce", "ounces", .weight, ["ounce", "ounces"], 28.3495, 0, false⟩,
  ⟨"st", "st", "stone", "stones", .weight, ["stone", "stones"], 6350.29, 0, false⟩,
  ⟨"ozt", "ozt", "troy ounce", "troy ounces", .weight, ["troy ounce", "troy ounces", "oz t"], 31.1035, 0, false⟩,
  ⟨"s", "s", "second", "seconds", .time, ["second", "seconds", "sec", "secs"], 1.0, 0, true⟩,
  ⟨"ms", "ms", "millisecond", "milliseconds", .time, ["millisecond", "milliseconds"], 0.001, 0, false⟩,
  ⟨"min", "min", "minute", "minutes", .time, ["minute", "minutes", "mins"], 60.0, 0, false⟩,
  ⟨"h", "h", "hour", "hours", .time, ["hour", "hours", "hr", "hrs"], 3600.0, 0, false⟩,
  ⟨"d", "d", "day", "days", .time, ["day", "days"], 86400.0, 0, false⟩,
  ⟨"wk", "wk", "week", "weeks", .time, ["week", "weeks"], 604800.0, 0, false⟩,
  ⟨"mo", "mo", "month", "months", .time, ["month", "months"], 2629746.0, 0, false⟩,
  ⟨"y", "y", "year", "years", .time, ["year", "years", "yr", "yrs"], 31556952.0, 0, false⟩,
  ⟨"K", "K", "Kelvin", "Kelvin", .temperature, ["kelvin"], 1.0, 0, true⟩,
  ⟨"C", "\u00b0C", "Celsius", "Celsius", .temperature, ["celsius", "centigrade"], 1.0, 0, false⟩,
  ⟨"F", "\u00b0F", "Fahrenheit", "Fahrenheit", .temperature, ["fahrenheit"], 1.0, 0, false⟩,
  ⟨"B", "B", "byte", "bytes", .data, ["byte", "bytes"], 1.0, 0, true⟩,
  ⟨"KB", "KB", "kilobyte", "kilobytes", .data, ["kilobyte", "kilobytes", "kb"], 1024.0, 0, false⟩,
  ⟨"MB", "MB", "megabyte", "megabytes", .data, ["megabyte", "megabytes", "mb"], 1048576.0, 0, false⟩,
  ⟨"GB", "GB", "gigabyte", "gigabytes", .data, ["gigabyte", "gigabytes", "gb"], 1073741824.0, 0, false⟩,
  ⟨"TB", "TB", "terabyte", "terabytes", .data, ["terabyte", "terabytes", "tb"], 1099511627776.0, 0, false⟩,
  ⟨"PB", "PB", "petabyte", "petabytes", .data, ["petabyte", "petabytes", "pb"], 1125899906842624.0, 0, false⟩,
  ⟨"bit", "bit", "bit", "bits", .data, ["bits"], 0.125, 0, false⟩,
  ⟨"Kbit", "Kbit", "kilobit", "kilobits", .data, ["kilobit", "kilobits", "kbit"], 128.0, 0, false⟩,
  ⟨"Mbit", "Mbit", "megabit", "megabits", .data, ["megabit", "megabits", "mbit"], 131072.0, 0, false⟩,
  ⟨"Gbit", "Gbit", "gigabit", "gigabits", .data, ["gigabit", "gigabits", "gbit"], 134217728.0, 0, false⟩,
  ⟨"sqm", "m\u00b2", "square meter", "square meters", .area, ["square meter", "square meters", "sq m", "m2"], 1.0, 0, true⟩,
  ⟨"sqkm", "km\u00b2", "square kilometer", "square kilometers", .area, ["square kilometer", "square kilometers", "sq km", "km2"], 1000000.0, 0, false⟩,
  ⟨"sqft", "ft\u00b2", "square foot", "square feet", .area, ["square foot", "square feet", "sq ft", "ft2"], 0.092903, 0, false⟩,
  ⟨"sqmi", "mi\u00b2", "square mile", "square miles", .area, ["square mile", "square miles", "sq mi", "mi2"], 2589988.0, 0, false⟩,
  ⟨"acre", "acre", "acre", "acres", .area, ["acres"], 4046.86, 0, false⟩,
  ⟨"ha", "ha", "hectare", "hectares", .area, ["hectare", "hectares"], 10000.0, 0, false⟩,
  ⟨"L", "L", "liter", "liters", .volume, ["liter", "liters", "litre", "litres", "l"], 1.0, 0, true⟩,
  ⟨"mL", "mL", "milliliter", "milliliters", .volume, ["milliliter", "milliliters", "millilitre", "millilitres", "ml"], 0.001, 0, false⟩,
  ⟨"gal", "gal", "gallon", "gallons", .volume, ["gallon", "gallons"], 3.78541, 0, false⟩,
  ⟨"qt", "qt", "quart", "quarts", .volume, ["quart", "quarts"], 0.946353, 0, false⟩,
  ⟨"pt", "pt", "pint", "pints", .volume, ["pint", "pints"], 0.473176, 0, false⟩,
  ⟨"cup", "cup", "cup", "cups", .volume, ["cups"], 0.236588, 0, false⟩,
  ⟨"floz", "fl oz", "fluid ounce", "fluid ounces", .volume, ["fluid ounce", "fluid ounces", "fl oz"], 0.0295735, 0, false⟩,
  ⟨"tbsp", "tbsp", "tablespoon", "tablespoons", .volume, ["tablespoon", "tablespoons"], 0.0147868, 0, false⟩,
  ⟨"tsp", "tsp", "teaspoon", "teaspoons", .volume, ["teaspoon", "teaspoons"], 0.00492892, 0, false⟩,
  ⟨"m3", "m\u00b3", "cubic meter", "cubic meters", .volume, ["cubic meter", "cubic meters", "cubic metre", "cubic metres"], 1000.0, 0, false⟩]

/-- Go struct `CurrencyRegistry` (currency.go). -/
structure CurrencyRegistry where
  byCode : List (String × Currency)
  bySymbol : List (String × Currency)
  byAlias : List (String × Currency)

/-- Go `(*CurrencyRegistry).register` (currency.go). -/
def currencyRegister (r : CurrencyRegistry) (c : Currency) : CurrencyRegistry :=
  let r := { r with byCode := put (put r.byCode (asciiUpper c.code) c) (asciiLower c.code) c }
  let r := if c.symbol ≠ "" then { r with bySymbol := put r.bySymbol c.symbol c } else r
  { r with byAlias := c.aliases.foldl (fun m a => put m (asciiLower a) c) r.byAlias }

/-- Go global `currencies` built by `newCurrencyRegistry` (currency.go). -/
def currencies : CurrencyRegistry := curatedCurrencies.foldl currencyRegister ⟨[], [], []⟩

/-- Go `(*CurrencyRegistry).Lookup`: symbol, then code (case-insensitive), then alias. -/
def currencyLookup (s : String) : Option Currency :=
  match lookup currencies.bySymbol s with
  | some c => some c
  | none =>
    match lookup currencies.byCode (asciiUpper s) with
    | some c => some c
    | none => lookup currencies.byAlias (asciiLower s)

/-- Go `types.ParseCurrency` (currency.go). -/
def parseCurrency (s : String) : Option Currency := currencyLookup (goTrimSpace s)

/-- Go `types.CurrencyFromCode` (currency.go). -/
def currencyFromCode (s : String) : Option Currency :=
  let code := asciiUpper (goTrimSpace s)
  if code.length ≠ 3 then none
  else
    match currencyLookup code with
    | some c => some c
    | none => some ⟨code, code, code, [], false⟩

/-- Go `types.LookupCurrencyBySymbol` (currency.go). -/
def lookupCurrencyBySymbol (symbol : String) : Option Currency :=
  lookup currencies.bySymbol symbol

/-- Go `types.IsCurrencySymbolRune` (currency.go). -/
def isCurrencySymbolRune (c : Char) : Bool :=
  (lookup currencies.bySymbol (String.singleton c)).isSome

/-- Go struct `CryptoRegistry` (crypto.go). -/
structure CryptoRegistry where
  byCode : List (String × Crypto)
  bySymbol : List (String × Crypto)
  byAlias : List (String × Crypto)

/-- Go `(*CryptoRegistry).register` (crypto.go). -/
def cryptoRegister (r : CryptoRegistry) (c : Crypto) : CryptoRegistry :=
  let r := { r with byCode := put (put r.byCode (asciiUpper c.code) c) (asciiLower c.code) c }
  let r :=
    if c.symbol ≠ "" ∧ c.symbol ≠ c.code then { r with bySymbol := put r.bySymbol c.symbol c }
    else r
  { r with byAlias := c.aliases.foldl (fun m a => put m (asciiLower a) c) r.byAlias }

/-- Go global `cryptos` built by `newCryptoRegistry` (crypto.go). -/
def cryptos : CryptoRegistry := curatedCryptos.foldl cryptoRegister ⟨[], [], []⟩

/-- Go `(*CryptoRegistry).Lookup` (crypto.go). -/
def cryptoLookup (s : String) : Option Crypto :=
  match lookup cryptos.bySymbol s with
  | some c => some c
  | none =>
    match lookup cryptos.byCode (asciiUpper s) with
    | some c => some c
    | none => lookup cryptos.byAlias (asciiLower s)

/-- Go `types.ParseCrypto` (crypto.go). -/
def parseCrypto (s : String) : Option Crypto := cryptoLookup (goTrimSpace s)

/-- Go `types.LookupCrypto` (crypto.go). -/
def lookupCrypto (s : String) : Option Crypto := cryptoLookup s

/-- Go `types.IsCrypto` (crypto.go). -/
def isCryptoStr (s : String) : Bool := (cryptoLookup s).isSome

/-- Go `types.IsCryptoSymbolRune` (crypto.go). -/
def isCryptoSymbolRune (c : Char) : Bool :=
  (lookup cryptos.bySymbol (String.singleton c)).isSome

/-- Go struct `MetalRegistry` (metal.go). -/
structure MetalRegistry where
  byCode : List (String × Metal)
  byAlias : List (String × Metal)

/-- Go `(*MetalRegistry).register` (metal.go). -/
def metalRegister (r : MetalRegistry) (m : Metal) : MetalRegistry :=
  let r := { r with byCode := put (put r.byCode (asciiUpper m.code) m) (asciiLower m.code) m }
  { r with byAlias := m.aliases.foldl (fun t a => put t (asciiLower a) m) r.byAlias }

/-- Go global `metals` built by `newMetalRegistry` (metal.go). -/
def metals : MetalRegistry := curatedMetals.foldl metalRegister ⟨[], []⟩

/-- Go `(*MetalRegistry).Lookup`: code (case-insensitive), then alias. -/
def metalLookup (s : String) : Option Metal :=
  match lookup metals.byCode (asciiUpper s) with
  | some m => some m
  | none => lookup metals.byAlias (asciiLower s)

/-- Go `types.ParseMetal` (metal.go). -/
def parseMetal (s : String) : Option Metal := metalLookup (goTrimSpace s)

/-- Go struct `UnitRegistry` (unit.go).  The `byType` index is omitted: it
only feeds `UnitsByType` / `BaseUnit`, which no claim's call graph reaches. -/
structure UnitRegistry where
  byCode : List (String × Unit)
  byAlias : List (String × Unit)

/-- Go `(*UnitRegistry).register` (unit.go). -/
def unitRegister (r : UnitRegistry) (u : Unit) : UnitRegistry :=
  let r := { r with byCode := put (put (put r.byCode u.code u) (asciiLower u.code) u) (asciiUpper u.code) u }
  { r with byAlias := u.aliases.foldl (fun t a => put t (asciiLower a) u) r.byAlias }

/-- Go global `units` built by `newUnitRegistry` (unit.go). -/
def unitsReg : UnitRegistry := curatedUnits.foldl unitRegister ⟨[], []⟩

/-- Go `(*UnitRegistry).Lookup`: exact code, lower-cased code, then alias. -/
def unitLookup (s : String) : Option Unit :=
  match lookup unitsReg.byCode s with
  | some u => some u
  | none =>
    match lookup unitsReg.byCode (asciiLower s) with
    | some u => some u
    | none => lookup unitsReg.byAlias (asciiLower s)

/-- Go `types.ParseUnit` (unit.go). -/
def parseUnit (s : String) : Option Unit := unitLookup (goTrimSpace s)

/-- Go `convertTemperature` (unit.go): via Kelvin. -/
def convertTemperature (value : F) (fromU toU : Unit) : F :=
  let kelvin :=
    match fromU.code with
    | "K" => value
    | "C" => value + 273.15
    | "F" => (value - 32) * 5 / 9 + 273.15
    | _ => value
  match toU.code with
  | "K" => kelvin
  | "C" => kelvin - 273.15
  | "F" => (kelvin - 273.15) * 9 / 5 + 32
  | _ => kelvin

/-- Go `(Unit).ConvertTo` (unit.go): `(0, false)` on type mismatch becomes `none`. -/
def unitConvertTo (u : Unit) (value : F) (target : Unit) : Option F :=
  if u.type ≠ target.type then none
  else if u.type = UnitType.temperature then some (convertTemperature value u target)
  else some (value * u.toBase / target.toBase)

/-! ## Value model (internal/types/value.go) -/

/-- Go enum `types.ValueKind` (value.go). -/
inductive ValueKind where
  | empty | number | percentage | currency | withUnit | metal | crypto | error
deriving DecidableEq, Repr

/-- Go struct `types.Value` (value.go): a kind tag plus the payload fields,
with Go zero values as defaults. -/
structure Value where
  kind : ValueKind
  num : F := 0
  curr : Option Currency := none
  unit : Option Unit := none
  metal : Option Metal := none
  crypto : Option Crypto := none
  err : String := ""
deriving DecidableEq, Repr

/-- Go `types.Empty` (value.go). -/
def Value.emptyValue : Value := { kind := .empty }

/-- Go `types.Number` (value.go). -/
def Value.number (n : F) : Value := { kind := .number, num := n }

/-- Go `types.Percentage` (value.go): input already in decimal form. -/
def Value.percentage (p : F) : Value := { kind := .percentage, num := p }

/-- Go `types.CurrencyValue` (value.go); the Go pointer is an `Option`. -/
def Value.currencyValue (amount : F) (c : Option Currency) : Value :=
  { kind := .currency, num := amount, curr := c }

/-- Go `types.UnitValue` (value.go). -/
def Value.unitValue (amount : F) (u : Option Unit) : Value :=
  { kind := .withUnit, num := amount, unit := u }

/-- Go `types.MetalValue` (value.go). -/
def Value.metalValue (amount : F) (m : Option Metal) : Value :=
  { kind := .metal, num := amount, metal := m }

/-- Go `types.CryptoValue` (value.go). -/
def Value.cryptoValue (amount : F) (c : Option Crypto) : Value :=
  { kind := .crypto, num := amount, crypto := c }

/-- Go `types.Error` (value.go). -/
def Value.error (message : String) : Value := { kind := .error, err := message }

/-- Go `Errorf` helper loop body (value.go): replace the first percent verb
(two characters) by the argument.  All call sites in the embedded call
graph pass string arguments. -/
def fmtOne (msg : List Char) (repl : List Char) : List Char :=
  match msg.findIdx? (fun c => c = '%') with
  | some idx => msg.take idx ++ repl ++ msg.drop (idx + 2)
  | none => msg

/-- Go `types.Errorf` (value.go), specialised to string arguments. -/
def Value.errorf (format : String) (args : List String) : Value :=
  { kind := .error, err := String.mk (args.foldl (fun m a => fmtOne m a.toList) format.toList) }

/-- Go `(Value).IsEmpty` (value.go). -/
def Value.isEmpty (v : Value) : Bool := v.kind = ValueKind.empty

/-- Go `(Value).IsError` (value.go). -/
def Value.isError (v : Value) : Bool := v.kind = ValueKind.error

/-- Go `(Value).IsNumeric` (value.go). -/
def Value.isNumeric (v : Value) : Bool :=
  match v.kind with
  | .number | .percentage | .currency | .withUnit | .metal | .crypto => true
  | _ => false

/-- Go `(Value).IsNumber` (value.go). -/
def Value.isNumber (v : Value) : Bool := v.kind = ValueKind.number

/-- Go `(Value).IsPercentage` (value.go). -/
def Value.isPercentage (v : Value) : Bool := v.kind = ValueKind.percentage

/-- Go `(Value).IsCurrency` (value.go). -/
def Value.isCurrency (v : Value) : Bool := v.kind = ValueKind.currency

/-- Go `(Value).IsUnit` (value.go). -/
def Value.isUnit (v : Value) : Bool := v.kind = ValueKind.withUnit

/-- Go `(Value).IsMetal` (value.go). -/
def Value.isMetal (v : Value) : Bool := v.kind = ValueKind.metal

/-- Go `(Value).IsCrypto` (value.go). -/
def Value.isCrypto (v : Value) : Bool := v.kind = ValueKind.crypto

/-- Go `(Value).AsFloat` (value.go): returns the `Num` field. -/
def Value.asFloat (v : Value) : F := v.num

/-- Go `(Value).WithAmount` (value.go): copy with a new numeric amount,
preserving kind and type information. -/
def Value.withAmount (v : Value) (amount : F) : Value := { v with num := amount }

/-- Go `(Value).Negate` (value.go). -/
def Value.negate (v : Value) : Value :=
  if v.isError ∨ v.isEmpty then v else v.withAmount (-v.num)

/-! ## AST (internal/ast/ast.go).  The dormant `CondExpr` / `RangeExpr`
variants are omitted: the parser never constructs them. -/

/-- Go enum `ast.BinaryOp` (ast.go). -/
inductive BinaryOp where
  | add | sub | mul | div | pow | mod
deriving DecidableEq, Repr

/-- Go `(BinaryOp).Precedence` (ast.go). -/
def BinaryOp.precedence : BinaryOp → Nat
  | .add | .sub => 1
  | .mul | .div | .mod => 2
  | .pow => 3

/-- Go enum `ast.UnaryOp` (ast.go). -/
inductive UnaryOp where
  | neg | pos
deriving DecidableEq, Repr

/-- Go expression nodes (ast.go), as a closed inductive. -/
inductive Expr where
  | numberLit (value : F) (raw : String)
  | percentLit (value : F) (raw : String)
  | currencyLit (amount : F) (currency : Option Currency) (raw : String)
  | unitLit (amount : F) (unit : Option Unit) (raw : String)
  | metalLit (amount : F) (metal : Option Metal) (raw : String)
  | cryptoLit (amount : F) (crypto : Option Crypto) (raw : String)
  | ident (name : String)
  | binary (left : Expr) (op : BinaryOp) (right : Expr)
  | unary (op : UnaryOp) (e : Expr)
  | percentOf (percent : Expr) (value : Expr)
  | conversion (value : Expr) (target : String)
  | call (name : String) (args : List Expr)
  | group (e : Expr)
  | continuation (op : BinaryOp) (e : Expr)
  | conversionCont (target : String)

/-- Go statement nodes (ast.go). -/
inductive Stmt where
  | emptyStmt
  | commentStmt (text : String)
  | exprStmt (e : Expr)
  | assign (name : String) (e : Expr)

/-- Go struct `ast.Line` (ast.go); its statement is a nilable interface. -/
structure Line where
  stmt : Option Stmt
  comment : String := ""
  raw : String := ""

/-! ## Tokens (internal/token/token.go) -/

/-- Go enum `token.Type` (token.go). -/
inductive TokType where
  | eof | illegal | number | percent | identifier
  | plus | minus | star | slash | caret | power | lparen | rparen | equals | comma
  | inTok | ofTok
  | dollar | euro | pound | yen | bitcoin | currencySym
  | commentTok | whitespace | newline
deriving DecidableEq, Repr

/-- Go struct `token.Token` (token.go). -/
structure Token where
  typ : TokType
  literal : String
  pos : Int
deriving DecidableEq, Repr

/-- Go `token.Keywords` (token.go): `to` is an alias for `in`. -/
def keywords : List (String × TokType) := [("in", .inTok), ("to", .inTok), ("of", .ofTok)]

/-- Go `token.LookupIdentifier` (token.go). -/
def lookupIdentifierTok (ident : String) : TokType :=
  match lookup keywords ident with
  | some t => t
  | none => .identifier

/-- Go `token.CurrencySymbols` (token.go). -/
def tokCurrencySymbols : List (Char × TokType) :=
  [('$', .dollar), ('€', .euro), ('£', .pound), ('¥', .yen),
   ('₿', .bitcoin), ('₹', .currencySym), ('₩', .currencySym),
   ('₽', .currencySym), ('₪', .currencySym), ('₴', .currencySym),
   ('₮', .currencySym), ('₳', .currencySym), ('Ð', .currencySym),
   ('Ł', .currencySym), ('Ξ', .currencySym), ('◎', .currencySym)]

/-- Go `token.LookupCurrencySymbol` (token.go). -/
def lookupCurrencySymbolTok (r : Char) : TokType :=
  match lookup tokCurrencySymbols r with
  | some t => t
  | none => .illegal

/-! ## Lexer (internal/lexer/lexer.go)

All loops are written with an explicit fuel argument; every wrapper passes
`input.length + 1` (or more), which exceeds the maximal number of
iterations since each iteration advances `readPos`. -/

/-- NUL, the Go lexer's end-of-input sentinel (`l.ch = 0`). -/
def nulChar : Char := Char.ofNat 0

/-- Go struct `Lexer` (lexer.go).  Input is a character list; byte and
character positions coincide on the ASCII inputs used by the theorems. -/
structure Lexer where
  input : List Char
  pos : Nat
  readPos : Nat
  ch : Char
  line : Nat
  col : Nat
deriving Repr

/-- Go `(*Lexer).readChar` (lexer.go); the UTF-8 multi-byte size
adjustment collapses at character granularity. -/
def readChar (l : Lexer) : Lexer :=
  let c := l.input.getD l.readPos nulChar
  let l := { l with ch := c, pos := l.readPos, readPos := l.readPos + 1, col := l.col + 1 }
  if c = '\n' then { l with line := l.line + 1, col := 0 } else l

/-- Go `(*Lexer).peekChar` (lexer.go). -/
def peekChar (l : Lexer) : Char := l.input.getD l.readPos nulChar

/-- Go `lexer.New` (lexer.go). -/
def lexNew (input : List Char) : Lexer :=
  readChar { input := input, pos := 0, readPos := 0, ch := nulChar, line := 1, col := 0 }

/-- Go `isDigit` (lexer.go). -/
def isDigit (c : Char) : Bool := '0' ≤ c ∧ c ≤ '9'

/-- Go `isLetter` (lexer.go); `unicode.IsLetter` is modelled by its ASCII
restriction `Char.isAlpha` (the theorems use ASCII input only). -/
def isLetter (c : Char) : Bool :=
  ('a' ≤ c ∧ c ≤ 'z') ∨ ('A' ≤ c ∧ c ≤ 'Z') ∨ c = '_' ∨ c.isAlpha

/-- Go `(*Lexer).skipWhitespace` (lexer.go): spaces, tabs, carriage
returns, but not newlines. -/
def skipWhitespace (fuel : Nat) (l : Lexer) : Lexer :=
  match fuel with
  | 0 => l
  | fuel + 1 =>
    if l.ch = ' ' ∨ l.ch = '\t' ∨ l.ch = '\r' then skipWhitespace fuel (readChar l) else l

/-- Go loop body of `isStartOfExpression` (lexer.go): walk backwards from
index `i`, skipping spaces and tabs. -/
def isoLoop (input : List Char) : Nat → Bool
  | 0 =>
    let c := input.getD 0 nulChar
    if c = ' ' ∨ c = '\t' then true
    else c = '+' ∨ c = '-' ∨ c = '*' ∨ c = '/' ∨ c = '^' ∨ c = '(' ∨ c = '=' ∨ c = ','
  | i + 1 =>
    let c := input.getD (i + 1) nulChar
    if c = ' ' ∨ c = '\t' then isoLoop input i
    else c = '+' ∨ c = '-' ∨ c = '*' ∨ c = '/' ∨ c = '^' ∨ c = '(' ∨ c = '=' ∨ c = ','

/-- Go `(*Lexer).isStartOfExpression` (lexer.go). -/
def isStartOfExpression (l : Lexer) : Bool :=
  if l.pos ≤ 1 then true else isoLoop l.input (l.pos - 2)

/-- Go integer-part loop of `readNumber` (lexer.go): digits with embedded
thousands separators, which are skipped in the output. -/
def readIntPart (fuel : Nat) (l : Lexer) (sb : List Char) (hasDigits : Bool) :
    Lexer × List Char × Bool :=
  match fuel with
  | 0 => (l, sb, hasDigits)
  | fuel + 1 =>
    if isDigit l.ch ∨ l.ch = ',' then
      if l.ch = ',' then
        if ¬ isDigit (peekChar l) then (l, sb, hasDigits)
        else readIntPart fuel (readChar l) sb hasDigits
      else readIntPart fuel (readChar l) (sb ++ [l.ch]) true
    else (l, sb, hasDigits)

/-- Go digit-run loop shared by the fraction and exponent parts of
`readNumber` (lexer.go). -/
def readDigits (fuel : Nat) (l : Lexer) (sb : List Char) : Lexer × List Char :=
  match fuel with
  | 0 => (l, sb)
  | fuel + 1 =>
    if isDigit l.ch then readDigits fuel (readChar l) (sb ++ [l.ch]) else (l, sb)

/-- Go `(*Lexer).readNumber` (lexer.go). -/
def readNumber (l : Lexer) (startPos : Int) : Token × Lexer :=
  let fuel := l.input.length + 1
  let d0 : Lexer × List Char :=
    if l.ch = '-' then (readChar l, [l.ch]) else (l, [])
  let r := readIntPart fuel d0.1 d0.2 false
  let l1 := r.1
  let sb1 := r.2.1
  let hasDigits := r.2.2
  let d1 : Lexer × List Char :=
    if l1.ch = '.' ∧ isDigit (peekChar l1) then
      readDigits fuel (readChar l1) (sb1 ++ ['.'])
    else if l1.ch = '.' ∧ ¬ hasDigits then
      readDigits fuel (readChar l1) (sb1 ++ ['0', '.'])
    else (l1, sb1)
  let d2 : Lexer × List Char :=
    if d1.1.ch = 'e' ∨ d1.1.ch = 'E' then
      let sbE := d1.2 ++ [d1.1.ch]
      let lE := readChar d1.1
      let dE : Lexer × List Char :=
        if lE.ch = '+' ∨ lE.ch = '-' then (readChar lE, sbE ++ [lE.ch]) else (lE, sbE)
      readDigits fuel dE.1 dE.2
    else d1
  if d2.1.ch = '%' then (⟨.percent, String.mk (d2.2 ++ ['%']), startPos⟩, readChar d2.1)
  else (⟨.number, String.mk d2.2, startPos⟩, d2.1)

/-- Go word-reading loop inside `readIdentifier` and
`tryReadMultiWordIdentifier` (lexer.go). -/
def readWordChars (fuel : Nat) (l : Lexer) (sb : List Char) : Lexer × List Char :=
  match fuel with
  | 0 => (l, sb)
  | fuel + 1 =>
    if isLetter l.ch ∨ isDigit l.ch ∨ l.ch = '_' then
      readWordChars fuel (readChar l) (sb ++ [l.ch])
    else (l, sb)

/-- Go letter-only loop inside `tryReadMultiWordIdentifier` (lexer.go). -/
def readLetters (fuel : Nat) (l : Lexer) (sb : List Char) : Lexer × List Char :=
  match fuel with
  | 0 => (l, sb)
  | fuel + 1 =>
    if isLetter l.ch ∨ l.ch = '_' then readLetters fuel (readChar l) (sb ++ [l.ch])
    else (l, sb)

/-- Go `multiWordPrefixes` table (lexer.go). -/
def multiWordContinuations : List (String × List String) :=
  [("turkish", ["lira"]),
   ("hong", ["kong", "dollar"]),
   ("new", ["zealand", "dollar"]),
   ("south", ["african", "rand", "korean", "won"]),
   ("saudi", ["riyal"]),
   ("swiss", ["franc", "francs"]),
   ("british", ["pound", "pounds"]),
   ("us", ["dollar", "dollars"]),
   ("mexican", ["peso"]),
   ("brazilian", ["real"]),
   ("indian", ["rupee", "rupees"]),
   ("square", ["meter", "meters", "foot", "feet", "mile", "miles", "kilometer", "kilometers"]),
   ("cubic", ["meter", "meters"]),
   ("fluid", ["ounce", "ounces"]),
   ("troy", ["ounce", "ounces"]),
   ("nautical", ["mile", "miles"])]

/-- Go expected-words loop of `tryReadMultiWordIdentifier` (lexer.go),
including the single-word backtrack on mismatch. -/
def tryWords (fuel : Nat) (l : Lexer) (words : List String) :
    List String → List String × Lexer
  | [] => (words, l)
  | expected :: rest =>
    let l := skipWhitespace fuel l
    if ¬ isLetter l.ch then (words, l)
    else
      let wordStart := l.pos
      let r := readLetters fuel l []
      let l' := r.1
      let word := String.mk r.2
      if (asciiLower word) = expected then tryWords fuel l' (words ++ [word]) rest
      else
        let newCh :=
          if wordStart < l'.input.length then l'.input.getD wordStart nulChar else nulChar
        (words, { l' with pos := wordStart, readPos := wordStart + 1, ch := newCh })

/-- Go `(*Lexer).tryReadMultiWordIdentifier` (lexer.go): returns the empty
string after a full state restore when no continuation matched. -/
def tryReadMultiWord (l : Lexer) (first : String) : String × Lexer :=
  let saved := l
  match lookup multiWordContinuations (asciiLower first) with
  | none => ("", l)
  | some expectedWords =>
    let r := tryWords (l.input.length + 1) l [first] expectedWords
    if r.1.length = 1 then ("", saved)
    else (String.intercalate " " r.1, r.2)

/-- Go `(*Lexer).readIdentifier` (lexer.go). -/
def readIdentifier (l : Lexer) (startPos : Int) : Token × Lexer :=
  let r := readWordChars (l.input.length + 1) l []
  let l := r.1
  let literal := String.mk r.2
  let lower := (asciiLower literal)
  let tokType := lookupIdentifierTok lower
  if tokType ≠ TokType.identifier then (⟨tokType, literal, startPos⟩, l)
  else
    let m := tryReadMultiWord l literal
    if m.1 ≠ "" then (⟨.identifier, m.1, startPos⟩, m.2)
    else (⟨.identifier, literal, startPos⟩, m.2)

/-- Go comment-body loop of `readComment` (lexer.go). -/
def readCommentBody (fuel : Nat) (l : Lexer) (sb : List Char) : Lexer × List Char :=
  match fuel with
  | 0 => (l, sb)
  | fuel + 1 =>
    if l.ch ≠ '\n' ∧ l.ch ≠ nulChar then readCommentBody fuel (readChar l) (sb ++ [l.ch])
    else (l, sb)

/-- Go `(*Lexer).readComment` (lexer.go). -/
def readComment (l : Lexer) (startPos : Int) : Token × Lexer :=
  let d0 : Lexer × List Char :=
    if l.ch = '#' then (readChar l, ['#'])
    else if l.ch = '/' then
      let l2 := readChar l
      if l2.ch = '/' then (readChar l2, ['/', '/']) else (l2, ['/'])
    else (l, [])
  let r := readCommentBody (d0.1.input.length + 1) d0.1 d0.2
  (⟨.commentTok, String.mk r.2, startPos⟩, r.1)

/-- First byte of a character's UTF-8 encoding, as a character: Go's
`rune(symbol[0])` inside `readCurrencySymbol` indexes the byte encoding. -/
def utf8FirstByte (c : Char) : Char :=
  let n := c.toNat
  if n < 0x80 then c
  else if n < 0x800 then Char.ofNat (0xC0 + n / 64)
  else if n < 0x10000 then Char.ofNat (0xE0 + n / 4096)
  else Char.ofNat (0xF0 + n / 262144)

/-- Go `(*Lexer).readCurrencySymbol` (lexer.go). -/
def readCurrencySymbol (l : Lexer) (startPos : Int) : Token × Lexer :=
  let symbol := l.ch
  let l := readChar l
  let tokType := lookupCurrencySymbolTok (utf8FirstByte symbol)
  (⟨tokType, String.singleton symbol, startPos⟩, l)

/-- Go `(*Lexer).NextToken` (lexer.go). -/
def nextToken (l : Lexer) : Token × Lexer :=
  let l := skipWhitespace (l.input.length + 1) l
  let startPos : Int := l.pos
  if l.ch = nulChar then (⟨.eof, "", startPos⟩, l)
  else if l.ch = '#' ∨ (l.ch = '/' ∧ peekChar l = '/') then readComment l startPos
  else if isCurrencySymbolRune l.ch ∨ isCryptoSymbolRune l.ch then readCurrencySymbol l startPos
  else if isDigit l.ch ∨ (l.ch = '.' ∧ isDigit (peekChar l)) then readNumber l startPos
  else if l.ch = '+' then (⟨.plus, "+", startPos⟩, readChar l)
  else if l.ch = '-' then
    if isDigit (peekChar l) ∧ isStartOfExpression l then readNumber l startPos
    else (⟨.minus, "-", startPos⟩, readChar l)
  else if l.ch = '*' then
    if peekChar l = '*' then (⟨.power, "**", startPos⟩, readChar (readChar l))
    else (⟨.star, "*", startPos⟩, readChar l)
  else if l.ch = '/' then (⟨.slash, "/", startPos⟩, readChar l)
  else if l.ch = '^' then (⟨.caret, "^", startPos⟩, readChar l)
  else if l.ch = '(' then (⟨.lparen, "(", startPos⟩, readChar l)
  else if l.ch = ')' then (⟨.rparen, ")", startPos⟩, readChar l)
  else if l.ch = '=' then (⟨.equals, "=", startPos⟩, readChar l)
  else if l.ch = ',' then (⟨.comma, ",", startPos⟩, readChar l)
  else if l.ch = '%' then (⟨.percent, "%", startPos⟩, readChar l)
  else if l.ch = '\n' then (⟨.newline, "\n", startPos⟩, readChar l)
  else if isLetter l.ch ∨ l.ch = '_' then readIdentifier l startPos
  else (⟨.illegal, String.singleton l.ch, startPos⟩, readChar l)

/-- Go `(*Lexer).Tokenize` loop (lexer.go). -/
def tokenizeAux (fuel : Nat) (l : Lexer) : List Token :=
  match fuel with
  | 0 => []
  | fuel + 1 =>
    let r := nextToken l
    if r.1.typ = TokType.eof then [r.1] else r.1 :: tokenizeAux fuel r.2

/-- Go `lexer.Tokenize` (lexer.go): every non-EOF token consumes at least
one character, so `input.length + 2` calls always reach EOF. -/
def tokenize (input : List Char) : List Token :=
  tokenizeAux (input.length + 2) (lexNew input)

/-! ## Parser (internal/parser/parser.go)

The mutually recursive descent is driven by an explicit fuel argument;
`parseLineStr` passes `tokens.length * 4 + 16`, far above the maximal
recursion depth (each level either consumes a token or moves one step
down the fixed grammar chain). -/

/-- Go struct `errors.Error` as the parser uses it (message plus position). -/
structure PError where
  msg : String
  pos : Int
deriving DecidableEq, Repr

/-- Go struct `Parser` (parser.go): token buffer, cursor, error list. -/
structure PState where
  tokens : List Token
  pos : Nat
  errors : List PError

/-- Go `(*Parser).current` (parser.go). -/
def pCurrent (p : PState) : Token := p.tokens.getD p.pos ⟨.eof, "", -1⟩

/-- Go `(*Parser).peek` (parser.go). -/
def pPeek (p : PState) : Token := p.tokens.getD (p.pos + 1) ⟨.eof, "", -1⟩

/-- Go `(*Parser).advance` (parser.go). -/
def pAdvance (p : PState) : Token × PState :=
  (pCurrent p, if p.pos < p.tokens.length then { p with pos := p.pos + 1 } else p)

/-- Go `(*Parser).check` (parser.go). -/
def pCheck (p : PState) (t : TokType) : Bool := (pCurrent p).typ = t

/-- Go `(*Parser).checkAny` (parser.go). -/
def pCheckAny (p : PState) (ts : List TokType) : Bool := ts.any (fun t => pCheck p t)

/-- Go `(*Parser).match` (parser.go). -/
def pMatchTok (p : PState) (t : TokType) : Bool × PState :=
  if pCheck p t then (true, (pAdvance p).2) else (false, p)

/-- Go `(*Parser).addError` (parser.go). -/
def pAddError (p : PState) (msg : String) : PState :=
  { p with errors := p.errors ++ [⟨msg, (pCurrent p).pos⟩] }

/-- Go `(*Parser).addErrorf` (parser.go), string arguments only. -/
def pAddErrorf (p : PState) (format : String) (args : List String) : PState :=
  pAddError p (String.mk (args.foldl (fun m a => fmtOne m a.toList) format.toList))

/-- Go `(*Parser).expect` (parser.go). -/
def pExpect (p : PState) (t : TokType) (msg : String) : Bool × PState :=
  if pCheck p t then (true, (pAdvance p).2) else (false, pAddError p msg)

/-- Go `(*Parser).isBinaryOp` (parser.go). -/
def pIsBinaryOp (p : PState) : Bool :=
  pCheckAny p [.plus, .minus, .star, .slash, .caret, .power]

/-- Go `(*Parser).currentBinaryOp` (parser.go). -/
def pCurrentBinaryOp (p : PState) : BinaryOp :=
  match (pCurrent p).typ with
  | .plus => .add
  | .minus => .sub
  | .star => .mul
  | .slash => .div
  | .caret => .pow
  | .power => .pow
  | _ => .add

/-- Go `strings.TrimSuffix(s, "%")` as used by `parsePercent` (parser.go). -/
def trimPercentSuffix (s : String) : String :=
  let cs := s.toList
  if cs.getLast? = some '%' then String.mk cs.dropLast else s

/-- Digit-run value. -/
def digitsToNat (ds : List Char) : Nat :=
  ds.foldl (fun n c => n * 10 + (c.toNat - '0'.toNat)) 0

/-- Go `parseFloat` (parser.go): strip thousands separators, then
`strconv.ParseFloat` restricted to the decimal/scientific grammar the
lexer can emit (the Inf/NaN/hex forms never reach it). -/
def parseFloatGo (s : String) : Option F :=
  let cs := s.toList.filter (fun c => c ≠ ',')
  let (neg, cs) : Bool × List Char :=
    match cs with
    | '-' :: rest => (true, rest)
    | '+' :: rest => (false, rest)
    | _ => (false, cs)
  let intDigits := cs.takeWhile (fun c => isDigit c)
  let rest := cs.drop intDigits.length
  let (fracDigits, rest, hasDot) : List Char × List Char × Bool :=
    match rest with
    | '.' :: r => (r.takeWhile (fun c => isDigit c), r.drop (r.takeWhile (fun c => isDigit c)).length, true)
    | _ => ([], rest, false)
  if intDigits = [] ∧ fracDigits = [] then none
  else
    let mant : F :=
      (digitsToNat intDigits : F) + (digitsToNat fracDigits : F) / ((10 : F) ^ fracDigits.length)
    let _ := hasDot
    let withExp : Option F :=
      match rest with
      | [] => some mant
      | 'e' :: r => expPart mant r
      | 'E' :: r => expPart mant r
      | _ => none
    match withExp with
    | none => none
    | some v => some (if neg then -v else v)
where
  /-- Exponent suffix: optional sign then at least one digit. -/
  expPart (mant : F) (r : List Char) : Option F :=
    let (eneg, r) : Bool × List Char :=
      match r with
      | '-' :: rr => (true, rr)
      | '+' :: rr => (false, rr)
      | _ => (false, r)
    let eDigits := r.takeWhile (fun c => isDigit c)
    if eDigits = [] ∨ r.drop eDigits.length ≠ [] then none
    else
      let e : ℤ := if eneg then -(digitsToNat eDigits : ℤ) else (digitsToNat eDigits : ℤ)
      some (mant * (10 : F) ^ e)

/-- Go `(*Parser).parseNumber` (parser.go): a number literal, possibly
typed by a following currency / crypto / metal / unit identifier. -/
def parseNumberP (p : PState) : Option Expr × PState :=
  let r := pAdvance p
  let tok := r.1
  let p := r.2
  match parseFloatGo tok.literal with
  | none => (some (Expr.numberLit 0 tok.literal), pAddErrorf p "invalid number: %s" [tok.literal])
  | some value =>
    if pCheck p TokType.identifier then
      let suffix := (pCurrent p).literal
      match parseCurrency suffix with
      | some curr =>
        (some (Expr.currencyLit value (some curr) (tok.literal ++ " " ++ suffix)), (pAdvance p).2)
      | none =>
        match parseCrypto suffix with
        | some crypto =>
          (some (Expr.cryptoLit value (some crypto) (tok.literal ++ " " ++ suffix)), (pAdvance p).2)
        | none =>
          match parseMetal suffix with
          | some metal =>
            (some (Expr.metalLit value (some metal) (tok.literal ++ " " ++ suffix)), (pAdvance p).2)
          | none =>
            match parseUnit suffix with
            | some unit =>
              (some (Expr.unitLit value (some unit) (tok.literal ++ " " ++ suffix)), (pAdvance p).2)
            | none => (some (Expr.numberLit value tok.literal), p)
    else (some (Expr.numberLit value tok.literal), p)

/-- Go `(*Parser).parsePercent` (parser.go): the stored value is the
decimal fraction (display value divided by 100). -/
def parsePercentP (p : PState) : Option Expr × PState :=
  let r := pAdvance p
  let tok := r.1
  let p := r.2
  let numStr := trimPercentSuffix tok.literal
  match parseFloatGo numStr with
  | none => (some (Expr.percentLit 0 tok.literal), pAddErrorf p "invalid percentage: %s" [tok.literal])
  | some value => (some (Expr.percentLit (value / 100) tok.literal), p)

/-- Go `(*Parser).parseCurrencyWithSymbol` (parser.go). -/
def parseCurrencyWithSymbolP (p : PState) : Option Expr × PState :=
  let r := pAdvance p
  let symbol := r.1.literal
  let p := r.2
  let curr := lookupCurrencyBySymbol symbol
  let crypto : Option Crypto := if curr = none then lookupCrypto symbol else none
  if ¬ pCheck p TokType.number then
    let p := pAddError p "expected number after currency symbol"
    match curr with
    | some c => (some (Expr.currencyLit 0 (some c) symbol), p)
    | none =>
      match crypto with
      | some cr => (some (Expr.cryptoLit 0 (some cr) symbol), p)
      | none => (some (Expr.numberLit 0 symbol), p)
  else
    let r2 := pAdvance p
    let numTok := r2.1
    let p := r2.2
    let (amount, p) : F × PState :=
      match parseFloatGo numTok.literal with
      | none => (0, pAddErrorf p "invalid number: %s" [numTok.literal])
      | some a => (a, p)
    let raw := symbol ++ numTok.literal
    match curr with
    | some c => (some (Expr.currencyLit amount (some c) raw), p)
    | none =>
      match crypto with
      | some cr => (some (Expr.cryptoLit amount (some cr) raw), p)
      | none => (some (Expr.numberLit amount raw), p)

mutual

/-- Go `(*Parser).parseBinaryExpr` (parser.go): precedence climbing with
the trailing `in IDENT` conversion-suffix check after the operator loop. -/
def parseBinaryExprF (fuel : Nat) (minPrec : Nat) (p : PState) : Option Expr × PState :=
  match fuel with
  | 0 => (none, p)
  | fuel + 1 =>
    match parseUnaryExprF fuel p with
    | (none, p) => (none, p)
    | (some left, p) =>
      match binLoopF fuel left minPrec p with
      | (left, p, true) => (some left, p)
      | (left, p, false) =>
        if pCheck p TokType.inTok then
          let p' := (pAdvance p).2
          if pCheck p' TokType.identifier then
            let r := pAdvance p'
            (some (Expr.conversion left r.1.literal), r.2)
          else (some left, p')
        else (some left, p)

/-- Go loop body of `parseBinaryExpr` (parser.go).  The `Bool` is true on
the early `return left` taken when the right operand fails to parse (that
path skips the conversion-suffix check). -/
def binLoopF (fuel : Nat) (left : Expr) (minPrec : Nat) (p : PState) :
    Expr × PState × Bool :=
  match fuel with
  | 0 => (left, p, false)
  | fuel + 1 =>
    if ¬ pIsBinaryOp p then (left, p, false)
    else
      let op := pCurrentBinaryOp p
      let prec := op.precedence
      if prec < minPrec then (left, p, false)
      else
        let p := (pAdvance p).2
        let rightPrec := if op = BinaryOp.pow then prec else prec + 1
        match parseBinaryExprF fuel rightPrec p with
        | (none, p) => (left, pAddError p "expected expression after operator", true)
        | (some right, p) => binLoopF fuel (Expr.binary left op right) minPrec p

/-- Go `(*Parser).parseUnaryExpr` (parser.go). -/
def parseUnaryExprF (fuel : Nat) (p : PState) : Option Expr × PState :=
  match fuel with
  | 0 => (none, p)
  | fuel + 1 =>
    if pCheckAny p [.minus, .plus] then
      let r := pAdvance p
      match parseUnaryExprF fuel r.2 with
      | (none, p) => (none, p)
      | (some e, p) =>
        let op := if r.1.typ = TokType.minus then UnaryOp.neg else UnaryOp.pos
        (some (Expr.unary op e), p)
    else parsePostfixExprF fuel p

/-- Go `(*Parser).parsePostfixExpr` (parser.go): the `PERCENT of EXPR`
form, valid only when the primary is syntactically a percent literal. -/
def parsePostfixExprF (fuel : Nat) (p : PState) : Option Expr × PState :=
  match fuel with
  | 0 => (none, p)
  | fuel + 1 =>
    match parsePrimaryExprF fuel p with
    | (none, p) => (none, p)
    | (some e, p) =>
      if pCheck p TokType.ofTok then
        match e with
        | Expr.percentLit v raw =>
          let p := (pAdvance p).2
          match parseUnaryExprF fuel p with
          | (none, p) => (some (Expr.percentLit v raw), pAddError p "expected expression after 'of'")
          | (some value, p) => (some (Expr.percentOf (Expr.percentLit v raw) value), p)
        | _ => (some e, p)
      else (some e, p)

/-- Go `(*Parser).parsePrimaryExpr` (parser.go). -/
def parsePrimaryExprF (fuel : Nat) (p : PState) : Option Expr × PState :=
  match fuel with
  | 0 => (none, p)
  | fuel + 1 =>
    match (pCurrent p).typ with
    | .number => parseNumberP p
    | .percent => parsePercentP p
    | .dollar | .euro | .pound | .yen | .bitcoin | .currencySym => parseCurrencyWithSymbolP p
    | .identifier => parseIdentifierOrValueP fuel p
    | .lparen => parseGroupExprF fuel p
    | .eof | .newline | .commentTok => (none, p)
    | t =>
      if t ≠ TokType.rparen ∧ t ≠ TokType.comma then
        (none, pAddErrorf p "unexpected token: %s" [(pCurrent p).literal])
      else (none, p)

/-- Go `(*Parser).parseIdentifierOrValue` (parser.go).  The source also
performs a `types.ParseCurrency(name)` lookup whose result is unused
(empty branch); it has no effect and is omitted. -/
def parseIdentifierOrValueP (fuel : Nat) (p : PState) : Option Expr × PState :=
  match fuel with
  | 0 => (none, p)
  | fuel + 1 =>
  let r := pAdvance p
  let name := r.1.literal
  let p := r.2
  if pCheck p TokType.lparen then parseFunctionCallF fuel name p
  else
    let lower := (asciiLower name)
    if lower = "_" ∨ lower = "ans" then (some (Expr.ident "_"), p)
    else (some (Expr.ident name), p)

/-- Go `(*Parser).parseFunctionCall` (parser.go). -/
def parseFunctionCallF (fuel : Nat) (name : String) (p : PState) : Option Expr × PState :=
  match fuel with
  | 0 => (none, p)
  | fuel + 1 =>
    let p := (pAdvance p).2
    let r : List Expr × PState :=
      if ¬ pCheck p TokType.rparen then parseCallArgsF fuel p [] else ([], p)
    let p := (pExpect r.2 TokType.rparen "expected ')' after function arguments").2
    (some (Expr.call name r.1), p)

/-- Go argument loop of `parseFunctionCall` (parser.go). -/
def parseCallArgsF (fuel : Nat) (p : PState) (args : List Expr) : List Expr × PState :=
  match fuel with
  | 0 => (args, p)
  | fuel + 1 =>
    match parseExpressionF fuel p with
    | (arg, p) =>
      let args := match arg with | some a => args ++ [a] | none => args
      match pMatchTok p TokType.comma with
      | (true, p) => parseCallArgsF fuel p args
      | (false, p) => (args, p)

/-- Go `(*Parser).parseGroupExpr` (parser.go). -/
def parseGroupExprF (fuel : Nat) (p : PState) : Option Expr × PState :=
  match fuel with
  | 0 => (none, p)
  | fuel + 1 =>
    let p := (pAdvance p).2
    let r := parseExpressionF fuel p
    let (e, p) : Expr × PState :=
      match r with
      | (none, p) => (Expr.numberLit 0 "", pAddError p "expected expression inside parentheses")
      | (some e, p) => (e, p)
    let p := (pExpect p TokType.rparen "expected ')' after expression").2
    (some (Expr.group e), p)

/-- Go `(*Parser).parseExpression` (parser.go). -/
def parseExpressionF (fuel : Nat) (p : PState) : Option Expr × PState :=
  match fuel with
  | 0 => (none, p)
  | fuel + 1 => parseBinaryExprF fuel 0 p

end

/-- Go `(*Parser).parseBinaryOp` (parser.go). -/
def pParseBinaryOp (p : PState) : BinaryOp × PState :=
  (pCurrentBinaryOp p, (pAdvance p).2)

/-- Go `(*Parser).parseAssignment` (parser.go). -/
def parseAssignmentP (fuel : Nat) (p : PState) : Stmt × PState :=
  let r := pAdvance p
  let name := r.1.literal
  let p := (pAdvance r.2).2
  match parseExpressionF fuel p with
  | (none, p) => (Stmt.assign name (Expr.numberLit 0 ""), pAddError p "expected expression after '='")
  | (some e, p) => (Stmt.assign name e, p)

/-- Go `(*Parser).parseContinuation` (parser.go). -/
def parseContinuationP (fuel : Nat) (p : PState) : Stmt × PState :=
  let r := pParseBinaryOp p
  match parseExpressionF fuel r.2 with
  | (none, p) => (Stmt.emptyStmt, pAddError p "expected expression after operator")
  | (some e, p) => (Stmt.exprStmt (Expr.continuation r.1 e), p)

/-- Go `(*Parser).parseConversionContinuation` (parser.go). -/
def parseConversionContinuationP (p : PState) : Stmt × PState :=
  let p := (pAdvance p).2
  if ¬ pCheck p TokType.identifier then
    (Stmt.emptyStmt, pAddError p "expected unit or currency after 'in'/'to'")
  else
    let r := pAdvance p
    (Stmt.exprStmt (Expr.conversionCont r.1.literal), r.2)

/-- Go `(*Parser).parseStatement` (parser.go). -/
def parseStatementP (fuel : Nat) (p : PState) : Stmt × PState :=
  if pCheck p TokType.identifier ∧ (pPeek p).typ = TokType.equals then parseAssignmentP fuel p
  else if pCheckAny p [.plus, .minus, .star, .slash, .caret, .power] then parseContinuationP fuel p
  else if pCheck p TokType.inTok then parseConversionContinuationP p
  else
    match parseExpressionF fuel p with
    | (none, p) => (Stmt.emptyStmt, p)
    | (some e, p) => (Stmt.exprStmt e, p)

/-- Leading-newline skip loop of `ParseLine` (parser.go). -/
def skipNewlines (fuel : Nat) (p : PState) : PState :=
  match fuel with
  | 0 => p
  | fuel + 1 =>
    match pMatchTok p TokType.newline with
    | (true, p) => skipNewlines fuel p
    | (false, p) => p

/-- Go `(*Parser).ParseLine` (parser.go). -/
def parseLineP (fuel : Nat) (p : PState) : Line × PState :=
  let p := skipNewlines (p.tokens.length + 1) p
  if pCheck p TokType.eof then ({ stmt := some Stmt.emptyStmt }, p)
  else if pCheck p TokType.commentTok then
    let r := pAdvance p
    ({ stmt := some (Stmt.commentStmt r.1.literal), comment := r.1.literal }, r.2)
  else
    let r := parseStatementP fuel p
    let p := r.2
    let (comment, p) : String × PState :=
      if pCheck p TokType.commentTok then
        let r2 := pAdvance p
        (r2.1.literal, r2.2)
      else ("", p)
    ({ stmt := some r.1, comment := comment }, p)

/-- Go `parser.New` (parser.go). -/
def parserNew (input : String) : PState :=
  { tokens := tokenize input.toList, pos := 0, errors := [] }

/-- Go convenience `parser.ParseLine` (parser.go): parse one line, return
it with the accumulated error list. -/
def parseLineStr (input : String) : Line × List PError :=
  let p := parserNew input
  let r := parseLineP (p.tokens.length * 8 + 32) p
  (r.1, r.2.errors)

/-! ## Rate cache (internal/cache/cache.go)

The cache's clock/TTL fields and the file persistence layer are I/O-bound
and outside the shallow embedding; the rate table and its operations are
embedded in full.  `cache.New` is modelled as `loadDefaults` on an empty
table (the `LoadFromFile` disk probe is environment I/O). -/

/-- Go struct key `ratePair` (cache.go). -/
abbrev RatePair := String × String

/-- The `rates` map of `RateCache` (cache.go). -/
abbrev RateTable := List (RatePair × F)

/-- Go `(*RateCache).SetRate` (cache.go): store the rate and, when it is
non-zero, its reciprocal. -/
def setRate (rates : RateTable) (fromC toC : String) (rate : F) : RateTable :=
  let f := (asciiUpper fromC)
  let t := (asciiUpper toC)
  let rates := put rates (f, t) rate
  if rate ≠ 0 then put rates (t, f) (1 / rate) else rates

/-- Go inner `for pair, rate := range c.rates` loop of `findRateBFS`
(cache.go), for one dequeued entry: scan all stored pairs leaving
`cur.1`, returning the accumulated rate when the target is reached,
otherwise the extended queue and visited set. -/
def bfsScan (cur : String × F) (toC : String) :
    RateTable → List (String × F) → List String → Option F × List (String × F) × List String
  | [], queue, visited => (none, queue, visited)
  | (pair, rate) :: rest, queue, visited =>
    if pair.1 ≠ cur.1 then bfsScan cur toC rest queue visited
    else
      let next := pair.2
      let nextRate := cur.2 * rate
      if next = toC then (some nextRate, queue, visited)
      else if ¬ visited.contains next then
        bfsScan cur toC rest (queue ++ [(next, nextRate)]) (visited ++ [next])
      else bfsScan cur toC rest queue visited

/-- Go outer queue loop of `findRateBFS` (cache.go). -/
def bfsLoop (tbl : RateTable) (toC : String) :
    Nat → List (String × F) → List String → Option F
  | 0, _, _ => none
  | _, [], _ => none
  | fuel + 1, cur :: rest, visited =>
    match bfsScan cur toC tbl rest visited with
    | (some r, _, _) => some r
    | (none, q, v) => bfsLoop tbl toC fuel q v

/-- Go `(*RateCache).findRateBFS` (cache.go).  Every enqueue marks a new
visited code, so at most `tbl.length + 1` dequeues can happen and the
fuel never runs out. -/
def findRateBFS (tbl : RateTable) (fromC toC : String) : Option F :=
  bfsLoop tbl toC (tbl.length + 2) [(fromC, 1)] [fromC]

/-- Go `(*RateCache).GetRate` (cache.go): identity, direct entry, then
breadth-first search. -/
def getRate (tbl : RateTable) (fromC toC : String) : Option F :=
  let f := (asciiUpper fromC)
  let t := (asciiUpper toC)
  if f = t then some 1
  else
    match lookup tbl (f, t) with
    | some rate => some rate
    | none => findRateBFS tbl f t

/-- Go `(*RateCache).Convert` (cache.go). -/
def convert (tbl : RateTable) (amount : F) (fromC toC : String) : Option F :=
  (getRate tbl fromC toC).map (fun rate => amount * rate)

/-- Go `fiatDefaults` of `loadDefaults` (cache.go): 1 USD = rate CODE. -/
def fiatDefaults : List (String × F) :=
  [("EUR", 0.92), ("GBP", 0.79), ("JPY", 149.50), ("CHF", 0.88), ("CAD", 1.36),
   ("AUD", 1.53), ("CNY", 7.24), ("INR", 83.12), ("KRW", 1320.0), ("MXN", 17.15),
   ("BRL", 4.97), ("RUB", 92.50), ("TRY", 32.50), ("ZAR", 18.65), ("SGD", 1.34),
   ("HKD", 7.82), ("NOK", 10.65), ("SEK", 10.42), ("DKK", 6.87), ("PLN", 3.98),
   ("THB", 35.20), ("IDR", 15650.0), ("MYR", 4.72), ("PHP", 55.80), ("CZK", 22.85),
   ("ILS", 3.72), ("AED", 3.67), ("SAR", 3.75), ("TWD", 31.50), ("HUF", 355.0),
   ("UAH", 41.0), ("VND", 24500.0), ("EGP", 30.90), ("PKR", 285.0), ("BDT", 110.0),
   ("NGN", 800.0), ("ARS", 850.0), ("CLP", 880.0), ("COP", 3950.0), ("KES", 155.0),
   ("QAR", 3.64), ("KWD", 0.31), ("RON", 4.57), ("NZD", 1.64)]

/-- Go `cryptoDefaults` of `loadDefaults` (cache.go): 1 TOKEN = rate USD. -/
def cryptoDefaults : List (String × F) :=
  [("BTC", 95000.0), ("ETH", 3500.0), ("SOL", 180.0), ("BNB", 650.0), ("XRP", 2.20),
   ("ADA", 0.95), ("DOGE", 0.38), ("DOT", 7.50), ("MATIC", 0.55), ("LTC", 105.0),
   ("LINK", 22.0), ("AVAX", 42.0), ("ATOM", 9.50), ("UNI", 12.0), ("XLM", 0.42),
   ("ALGO", 0.35), ("TON", 6.50), ("NEAR", 5.80), ("APT", 12.50), ("ARB", 1.10),
   ("OP", 2.80), ("AAVE", 350.0), ("MKR", 3200.0), ("CRV", 0.85), ("SHIB", 0.000025),
   ("PEPE", 0.000018), ("WIF", 2.50), ("BONK", 0.000032), ("USDT", 1.0),
   ("USDC", 1.0), ("DAI", 1.0), ("BUSD", 1.0)]

/-- Go `metalDefaults` of `loadDefaults` (cache.go): 1 oz = rate USD. -/
def metalDefaults : List (String × F) :=
  [("XAU", 2650.0), ("XAG", 31.50), ("XPT", 1020.0), ("XPD", 1100.0)]

/-- Go `(*RateCache).loadDefaults` (cache.go).  Go iterates the three
literal maps in unspecified order; the model uses source order.  All
written keys are pairwise distinct across the loops, so the resulting
table is order-independent. -/
def loadDefaults (rates : RateTable) : RateTable :=
  let rates := put rates ("USD", "USD") 1.0
  let rates := fiatDefaults.foldl
    (fun rs cr =>
      let rs := put rs ("USD", cr.1) cr.2
      if cr.2 ≠ 0 then put rs (cr.1, "USD") (1 / cr.2) else rs) rates
  let rates := cryptoDefaults.foldl
    (fun rs cr =>
      let rs := put rs (cr.1, "USD") cr.2
      if cr.2 ≠ 0 then put rs ("USD", cr.1) (1 / cr.2) else rs) rates
  metalDefaults.foldl
    (fun rs cr =>
      let rs := put rs (cr.1, "USD") cr.2
      if cr.2 ≠ 0 then put rs ("USD", cr.1) (1 / cr.2) else rs) rates

/-- Go `cache.New` (cache.go), without the `LoadFromFile` disk probe. -/
def cacheNew : RateTable := loadDefaults []

/-- Go `(*RateCache).ConvertValue` (cache.go). -/
def convertValueCache (tbl : RateTable) (v : Value) (target : String) : Value × Bool :=
  if v.isError ∨ v.isEmpty then (v, false)
  else
    let target := (asciiUpper target)
    match v.kind with
    | .currency =>
      match v.curr with
      | none => (v, false)
      | some curr =>
        match convert tbl v.num curr.code target with
        | none => (v, false)
        | some converted =>
          let targetCurr :=
            match parseCurrency target with
            | some c => some c
            | none => currencyFromCode target
          (Value.currencyValue converted targetCurr, true)
    | .crypto =>
      match v.crypto with
      | none => (v, false)
      | some crypto =>
        match convert tbl v.num crypto.code target with
        | none => (v, false)
        | some converted =>
          match parseCrypto target with
          | some targetCrypto => (Value.cryptoValue converted (some targetCrypto), true)
          | none =>
            match parseCurrency target with
            | some targetCurr => (Value.currencyValue converted (some targetCurr), true)
            | none => (Value.number converted, true)
    | .metal =>
      match v.metal with
      | none => (v, false)
      | some metal =>
        match convert tbl v.num metal.code target with
        | none => (v, false)
        | some converted =>
          match parseCurrency target with
          | some targetCurr => (Value.currencyValue converted (some targetCurr), true)
          | none => (Value.number converted, true)
    | .withUnit => (v, false)
    | _ => (v, false)

/-! ## Evaluation context (internal/eval/context.go)

Mutating methods become functions returning the updated context.  The
mutex fields guard the same sequential semantics and are dropped. -/

/-- Go struct `eval.LineResult` (context.go). -/
structure LineResult where
  input : String := ""
  value : Value
  isConsumed : Bool := false
  isContinuation : Bool := false
  assignedVar : String := ""
deriving DecidableEq, Repr

/-- Go struct `eval.Context` (context.go).  The rate-cache pointer holds
the cache's rate table (see the cache section). -/
structure Ctx where
  /-- Go field `variables` (the name is a reserved word in Lean). -/
  vars : List (String × Value)
  rateCache : RateTable
  previous : Value
  lines : List LineResult
  precision : Int
  strict : Bool

/-- Go `eval.NewContext` (context.go). -/
def newContext : Ctx :=
  { vars := [], rateCache := cacheNew, previous := Value.emptyValue,
    lines := [], precision := 2, strict := false }

/-- Go `(*Context).calculateTotal` (context.go): sum of all non-consumed
numeric line values. -/
def calculateTotal (c : Ctx) : Value :=
  Value.number (c.lines.foldl
    (fun total lr =>
      if lr.isConsumed then total
      else if lr.value.isNumeric then total + lr.value.asFloat
      else total) 0)

/-- Go `(*Context).GetVariable` (context.go): the special names `_`,
`ans` and `total` resolve without touching the variables map; other
names look up exactly, then case-insensitively. -/
def getVariable (c : Ctx) (name : String) : Value × Bool :=
  let lower := (asciiLower name)
  if lower = "_" ∨ lower = "ans" then
    if ¬ c.previous.isEmpty then (c.previous, true) else (Value.emptyValue, false)
  else if lower = "total" then (calculateTotal c, true)
  else
    match lookup c.vars name with
    | some v => (v, true)
    | none =>
      match lookup c.vars lower with
      | some v => (v, true)
      | none => (Value.emptyValue, false)

/-- Go `(*Context).SetVariable` (context.go): the special names are never
stored. -/
def setVariable (c : Ctx) (name : String) (value : Value) : Ctx :=
  let lower := (asciiLower name)
  if lower = "_" ∨ lower = "ans" ∨ lower = "total" then c
  else { c with vars := put c.vars name value }

/-- Go `(*Context).SetPrevious` (context.go): only non-empty, non-error
values are stored. -/
def setPrevious (c : Ctx) (v : Value) : Ctx :=
  if ¬ v.isEmpty ∧ ¬ v.isError then { c with previous := v } else c

/-- Go `(*Context).HasPrevious` (context.go). -/
def hasPrevious (c : Ctx) : Bool := ¬ c.previous.isEmpty ∧ ¬ c.previous.isError

/-- Go `(*Context).AddLineResult` (context.go). -/
def addLineResult (c : Ctx) (lr : LineResult) : Ctx := { c with lines := c.lines ++ [lr] }

/-- Reverse-order helper for `MarkLastConsumed` (context.go): mark the
first valid entry of the reversed history. -/
def markFirstValid : List LineResult → List LineResult
  | [] => []
  | lr :: rest =>
    if ¬ lr.value.isEmpty ∧ ¬ lr.value.isError then { lr with isConsumed := true } :: rest
    else lr :: markFirstValid rest

/-- Go `(*Context).MarkLastConsumed` (context.go). -/
def markLastConsumed (c : Ctx) : Ctx :=
  { c with lines := (markFirstValid c.lines.reverse).reverse }

/-- Go `(*Context).Clone` (context.go): fresh copies of the variables map
and line slice, same shared rate cache. -/
def cloneCtx (c : Ctx) : Ctx :=
  { vars := c.vars, rateCache := c.rateCache, previous := c.previous,
    lines := c.lines, precision := c.precision, strict := c.strict }

/-- Go `(*Context).Convert` (context.go), forwarding to the rate cache. -/
def ctxConvert (c : Ctx) (amount : F) (fromC toC : String) : Option F :=
  convert c.rateCache amount fromC toC

/-- Go `(*Context).ConvertValue` (context.go): unit conversion first,
then the rate cache. -/
def ctxConvertValue (c : Ctx) (v : Value) (target : String) : Value × Bool :=
  match v.unit with
  | some u =>
    if v.kind = ValueKind.withUnit then
      match parseUnit target with
      | some targetUnit =>
        match unitConvertTo u v.num targetUnit with
        | some converted => (Value.unitValue converted (some targetUnit), true)
        | none => (v, false)
      | none => (v, false)
    else convertValueCache c.rateCache v target
  | none =>
    if v.kind = ValueKind.withUnit then (v, false)
    else convertValueCache c.rateCache v target

/-! ## Evaluator (internal/eval/eval.go)

Expression evaluation is structurally recursive over the tree but also
over the nested argument lists of calls, so it carries a fuel argument;
`evalLine`'s callers pass a fuel above any parse tree's depth. -/

/-- Truncation of a rational toward zero. -/
def goTrunc (q : F) : ℤ := if 0 ≤ q then ⌊q⌋ else -⌊-q⌋

/-- Go `math.Mod` (used by `applyBinaryOp`): the remainder with the sign
of the dividend, `x - trunc(x/y)·y`; only called with `y ≠ 0`. -/
def goMod (x y : F) : F := x - (goTrunc (x / y) : F) * y

/-- Go `math.Pow` modelled over `ℚ`: integer exponents are computed
exactly; fractional exponents (whose float value is irrational in
general) are mapped to `0`.  No claim depends on this function's value. -/
def goPow (a b : F) : F :=
  if b.den = 1 then
    if 0 ≤ b.num then a ^ b.num.toNat
    else if a = 0 then 0
    else (a ^ (-b.num).toNat)⁻¹
  else 0

/-- Go `math.IsNaN`: `ℚ` has no NaN, so this float-specific guard is
constantly false in the model. -/
def goIsNaN (_ : F) : Bool := false

/-- Go `math.IsInf`: `ℚ` has no infinities, so this float-specific guard
is constantly false in the model. -/
def goIsInf (_ : F) : Bool := false

/-- Go `math.Abs`. -/
def goAbs (x : F) : F := |x|

/-- Go `math.Round` (half away from zero). -/
def goRound (x : F) : F := if 0 ≤ x then (⌊x + 1/2⌋ : ℤ) else -(⌊-x + 1/2⌋ : ℤ)

/-- Go `math.Floor`. -/
def goFloor (x : F) : F := (⌊x⌋ : ℤ)

/-- Go `math.Ceil`. -/
def goCeil (x : F) : F := (⌈x⌉ : ℤ)

/-- Go `math.Sqrt` stand-in: irrational-valued on `ℚ`; no claim depends
on its value. -/
def goSqrt (_ : F) : F := 0

/-- Go `math.Log10` stand-in: irrational-valued on `ℚ`; no claim depends
on its value. -/
def goLog10 (_ : F) : F := 0

/-- Go `math.Log` stand-in: irrational-valued on `ℚ`; no claim depends
on its value. -/
def goLn (_ : F) : F := 0

/-- Go `math.Exp` stand-in: irrational-valued on `ℚ`; no claim depends
on its value. -/
def goExp (_ : F) : F := 0

/-- Go `math.Sin` / `Cos` / `Tan` / `Asin` / `Acos` / `Atan` stand-in:
irrational-valued on `ℚ`; no claim depends on these values. -/
def goTrig (_ : F) : F := 0

/-- Go `(*Evaluator).applyPercentageOp` (eval.go): `base × (1 ± pct)`,
preserving the left operand's type. -/
def applyPercentageOp (op : BinaryOp) (left right : Value) : Value :=
  let baseValue := left.asFloat
  let percentage := right.num
  let result :=
    if op = BinaryOp.add then baseValue * (1 + percentage)
    else baseValue * (1 - percentage)
  left.withAmount result

/-- Go `(*Evaluator).coerceResult` (eval.go), including its fall-through
structure: the same-`Kind` branch precedes the currency / unit
conversion branches, and anything unmatched degrades to a plain number. -/
def coerceResult (c : Ctx) (result : F) (left right : Value) (op : BinaryOp) : Value :=
  if (op = BinaryOp.mul ∨ op = BinaryOp.div) ∧ left.isNumber ∧ ¬ right.isNumber then
    right.withAmount result
  else if (op = BinaryOp.mul ∨ op = BinaryOp.div) ∧ right.isNumber ∧ ¬ left.isNumber then
    left.withAmount result
  else if (op = BinaryOp.mul ∨ op = BinaryOp.div) ∧ ¬ left.isNumber ∧ ¬ right.isNumber then
    Value.number result
  else if op = BinaryOp.add ∨ op = BinaryOp.sub then
    if left.kind = right.kind then left.withAmount result
    else if left.isNumber then right.withAmount result
    else if right.isNumber then left.withAmount result
    else if left.isCurrency ∧ right.isCurrency then
      match left.curr, right.curr with
      | some lc, some rc =>
        match ctxConvert c right.num rc.code lc.code with
        | some converted =>
          if op = BinaryOp.add then left.withAmount (left.num + converted)
          else left.withAmount (left.num - converted)
        | none => Value.number result
      | _, _ => Value.number result
    else if left.isUnit ∧ right.isUnit then
      match left.unit, right.unit with
      | some lu, some ru =>
        match unitConvertTo ru right.num lu with
        | some converted =>
          if op = BinaryOp.add then left.withAmount (left.num + converted)
          else left.withAmount (left.num - converted)
        | none => Value.error "incompatible units"
      | _, _ => Value.error "incompatible units"
    else Value.number result
  else Value.number result

/-- Go `(*Evaluator).applyBinaryOp` (eval.go): percentage special case,
percentage decimals under `*`/`/`, the zero checks for `/` and `%`, then
result-type coercion. -/
def applyBinaryOp (c : Ctx) (op : BinaryOp) (left right : Value) : Value :=
  if right.isPercentage ∧ (op = BinaryOp.add ∨ op = BinaryOp.sub) then
    applyPercentageOp op left right
  else
    let leftNum := left.asFloat
    let rightNum := right.asFloat
    let rightNum :=
      if right.isPercentage ∧ (op = BinaryOp.mul ∨ op = BinaryOp.div) then right.num
      else rightNum
    let leftNum :=
      if left.isPercentage ∧ (op = BinaryOp.mul ∨ op = BinaryOp.div) then left.num
      else leftNum
    match op with
    | .add => coerceResult c (leftNum + rightNum) left right op
    | .sub => coerceResult c (leftNum - rightNum) left right op
    | .mul => coerceResult c (leftNum * rightNum) left right op
    | .div =>
      if rightNum = 0 then Value.error "division by zero"
      else coerceResult c (leftNum / rightNum) left right op
    | .pow => coerceResult c (goPow leftNum rightNum) left right op
    | .mod =>
      if rightNum = 0 then Value.error "modulo by zero"
      else coerceResult c (goMod leftNum rightNum) left right op

/-- Go `(*Evaluator).evalIdentifier` (eval.go). -/
def evalIdentifier (c : Ctx) (name : String) : Value :=
  let r := getVariable c name
  if ¬ r.2 then
    if c.strict then Value.errorf "undefined variable: %s" [name]
    else Value.number 0
  else r.1

/-- Go `(*Evaluator).convertValue` (eval.go): unit target first, then the
context's rate conversion, then the diagnostic error messages. -/
def convertValueE (c : Ctx) (value : Value) (target : String) : Value :=
  let unitStep : Option Value :=
    match value.unit with
    | some u =>
      if value.isUnit then
        match parseUnit target with
        | some targetUnit =>
          match unitConvertTo u value.num targetUnit with
          | some converted => some (Value.unitValue converted (some targetUnit))
          | none => some (Value.errorf "cannot convert %s to %s" [u.code, target])
        | none => none
      else none
    | none => none
  match unitStep with
  | some r => r
  | none =>
    let r := ctxConvertValue c value target
    if r.2 then r.1
    else if (parseCurrency target).isSome ∨ (parseCrypto target).isSome then
      Value.errorf "no rate available for conversion to %s" [target]
    else if (parseUnit target).isSome then
      Value.errorf "cannot convert to %s (incompatible types)" [target]
    else Value.errorf "unknown target: %s" [target]

/-- Go loop of `fnSum` (eval.go): short-circuit on an error argument. -/
def sumLoop : List Value → F → Value ⊕ F
  | [], acc => Sum.inr acc
  | a :: rest, acc => if a.isError then Sum.inl a else sumLoop rest (acc + a.asFloat)

/-- Go `(*Evaluator).fnSum` (eval.go): the result carries the first
argument's type. -/
def fnSum (args : List Value) : Value :=
  match args with
  | [] => Value.number 0
  | a0 :: _ =>
    match sumLoop args 0 with
    | Sum.inl errv => errv
    | Sum.inr total => a0.withAmount total

/-- Go `(*Evaluator).fnAvg` (eval.go). -/
def fnAvg (args : List Value) : Value :=
  match args with
  | [] => Value.number 0
  | _ =>
    let sum := fnSum args
    if sum.isError then sum
    else sum.withAmount (sum.asFloat / (args.length : F))

/-- Go loop of `fnMin` (eval.go): track the argument holding the running
minimum together with its numeric value. -/
def minLoop : List Value → Value → F → Value
  | [], minVal, minNum => minVal.withAmount minNum
  | a :: rest, minVal, minNum =>
    if a.isError then a
    else if a.asFloat < minNum then minLoop rest a a.asFloat
    else minLoop rest minVal minNum

/-- Go `(*Evaluator).fnMin` (eval.go). -/
def fnMin (args : List Value) : Value :=
  match args with
  | [] => Value.error "min requires at least one argument"
  | a0 :: rest => minLoop rest a0 a0.asFloat

/-- Go loop of `fnMax` (eval.go). -/
def maxLoop : List Value → Value → F → Value
  | [], maxVal, maxNum => maxVal.withAmount maxNum
  | a :: rest, maxVal, maxNum =>
    if a.isError then a
    else if maxNum < a.asFloat then maxLoop rest a a.asFloat
    else maxLoop rest maxVal maxNum

/-- Go `(*Evaluator).fnMax` (eval.go). -/
def fnMax (args : List Value) : Value :=
  match args with
  | [] => Value.error "max requires at least one argument"
  | a0 :: rest => maxLoop rest a0 a0.asFloat

/-- Go `(*Evaluator).fnUnary` (eval.go). -/
def fnUnary (args : List Value) (fn : F → F) : Value :=
  match args with
  | [a] =>
    if a.isError then a
    else
      let result := fn a.asFloat
      if goIsNaN result ∨ goIsInf result then Value.error "invalid result"
      else Value.number result
  | _ => Value.error "function requires exactly one argument"

/-- Go `(*Evaluator).fnPow` (eval.go); note the source performs no error
check on the two arguments. -/
def fnPow (args : List Value) : Value :=
  match args with
  | [a, b] =>
    let result := goPow a.asFloat b.asFloat
    if goIsNaN result ∨ goIsInf result then Value.error "invalid result"
    else Value.number result
  | _ => Value.error "pow requires exactly two arguments"

/-- Go `(*Evaluator).callFunction` (eval.go). -/
def callFunction (name : String) (args : List Value) : Value :=
  match name with
  | "sum" => fnSum args
  | "avg" => fnAvg args
  | "average" => fnAvg args
  | "mean" => fnAvg args
  | "min" => fnMin args
  | "max" => fnMax args
  | "count" => Value.number (args.length : F)
  | "abs" => fnUnary args goAbs
  | "sqrt" => fnUnary args goSqrt
  | "round" => fnUnary args goRound
  | "floor" => fnUnary args goFloor
  | "ceil" => fnUnary args goCeil
  | "log" => fnUnary args goLog10
  | "log10" => fnUnary args goLog10
  | "ln" => fnUnary args goLn
  | "exp" => fnUnary args goExp
  | "sin" => fnUnary args goTrig
  | "cos" => fnUnary args goTrig
  | "tan" => fnUnary args goTrig
  | "asin" => fnUnary args goTrig
  | "acos" => fnUnary args goTrig
  | "atan" => fnUnary args goTrig
  | "pow" => fnPow args
  | _ => Value.errorf "unknown function: %s" [name]

mutual

/-- Go `(*Evaluator).evalExpr` (eval.go).  Exhausted fuel returns the
empty value; the wrappers pass fuel above any parse tree's depth. -/
def evalExprF (fuel : Nat) (c : Ctx) : Expr → Value
  | e =>
    match fuel with
    | 0 => Value.emptyValue
    | fuel + 1 =>
      match e with
      | .numberLit v _ => Value.number v
      | .percentLit v _ => Value.percentage v
      | .currencyLit a cur _ => Value.currencyValue a cur
      | .unitLit a u _ => Value.unitValue a u
      | .metalLit a m _ => Value.metalValue a m
      | .cryptoLit a cr _ => Value.cryptoValue a cr
      | .ident name => evalIdentifier c name
      | .binary l op r =>
        let lv := evalExprF fuel c l
        if lv.isError then lv
        else
          let rv := evalExprF fuel c r
          if rv.isError then rv
          else applyBinaryOp c op lv rv
      | .unary op e =>
        let v := evalExprF fuel c e
        if v.isError then v
        else
          match op with
          | .neg => v.negate
          | .pos => v
      | .percentOf pe ve =>
        let pv := evalExprF fuel c pe
        if pv.isError then pv
        else
          let vv := evalExprF fuel c ve
          if vv.isError then vv
          else
            let pct := if pv.isPercentage then pv.num else pv.asFloat / 100
            vv.withAmount (vv.asFloat * pct)
      | .conversion ve target =>
        let v := evalExprF fuel c ve
        if v.isError then v else convertValueE c v target
      | .call name args =>
        match evalArgsF fuel c args with
        | Sum.inl errv => errv
        | Sum.inr vs => callFunction (asciiLower name) vs
      | .group e => evalExprF fuel c e
      | .continuation op e =>
        if ¬ hasPrevious c then evalExprF fuel c e
        else
          let prev := c.previous
          let right := evalExprF fuel c e
          if right.isError then right
          else applyBinaryOp c op prev right
      | .conversionCont target =>
        if ¬ hasPrevious c then Value.error "no previous value to convert"
        else convertValueE c c.previous target

/-- Go argument loop of `evalCall` (eval.go): short-circuit on the first
error. -/
def evalArgsF (fuel : Nat) (c : Ctx) : List Expr → Value ⊕ List Value
  | [] => Sum.inr []
  | a :: rest =>
    match fuel with
    | 0 => Sum.inr []
    | fuel + 1 =>
      let v := evalExprF fuel c a
      if v.isError then Sum.inl v
      else
        match evalArgsF fuel c rest with
        | Sum.inl errv => Sum.inl errv
        | Sum.inr vs => Sum.inr (v :: vs)

end

/-- Go `(*Evaluator).evalAssign` (eval.go): an error result is never
stored. -/
def evalAssign (fuel : Nat) (c : Ctx) (name : String) (e : Expr) : Ctx × Value :=
  let value := evalExprF fuel c e
  if ¬ value.isError then (setVariable c name value, value) else (c, value)

/-- Go `(*Evaluator).evalStmt` (eval.go). -/
def evalStmt (fuel : Nat) (c : Ctx) : Stmt → Ctx × Value
  | .emptyStmt => (c, Value.emptyValue)
  | .commentStmt _ => (c, Value.emptyValue)
  | .exprStmt e => (c, evalExprF fuel c e)
  | .assign name e => evalAssign fuel c name e

/-- Go `(*Evaluator).EvalLine` (eval.go): evaluate, retroactively consume
the previous line on continuations, record the line, update `previous`. -/
def evalLine (fuel : Nat) (c : Ctx) (line : Line) : Ctx × Value :=
  match line.stmt with
  | none => (c, Value.emptyValue)
  | some stmt =>
    let r := evalStmt fuel c stmt
    let c := r.1
    let result := r.2
    let lr : LineResult := { input := line.raw, value := result }
    let (lr, c) : LineResult × Ctx :=
      match stmt with
      | .exprStmt (Expr.continuation _ _) => ({ lr with isContinuation := true }, markLastConsumed c)
      | .exprStmt (Expr.conversionCont _) => ({ lr with isContinuation := true }, markLastConsumed c)
      | _ => (lr, c)
    let lr : LineResult :=
      match stmt with
      | .assign name _ => { lr with assignedVar := name }
      | _ => lr
    let c := addLineResult c lr
    let c := setPrevious c result
    (c, result)

/-! ## Engine (pkg/engine/engine.go)

The engine couples an evaluator context with the shared rate cache; the
`rateCacheAdapter` indirection forwards `GetRate` / `Convert` /
`ConvertValue` unchanged and collapses in the model. -/

/-- Go struct `engine.Engine` (engine.go). -/
structure Engine where
  ctx : Ctx

/-- Go `engine.New` (engine.go). -/
def engineNew : Engine := { ctx := newContext }

/-- Evaluation fuel used by the engine wrappers: tokens are never more
numerous than characters, and tree depth never exceeds token count. -/
def evalFuel (input : String) : Nat := input.length * 8 + 64

/-- Go `(*Engine).Eval` (engine.go): trim, skip comment-only lines, parse
(parse errors evaluate nothing), then evaluate against the session. -/
def engineEval (e : Engine) (input : String) : Engine × Value :=
  let trimmed := goTrimSpace input
  if trimmed = "" then (e, Value.emptyValue)
  else if goStartsWith trimmed "#" ∨ goStartsWith trimmed "//" then (e, Value.emptyValue)
  else
    let r := parseLineStr input
    if r.2 ≠ [] then (e, Value.error ((r.2.headD ⟨"", 0⟩).msg))
    else
      let line := { r.1 with raw := input }
      let er := evalLine (evalFuel input) e.ctx line
      ({ ctx := er.1 }, er.2)

/-- Go `(*Engine).EvalPreview` (engine.go): clone the context (sharing
the rate cache), evaluate the line against the clone and discard the
clone's final state; the engine's own context is never touched, so the
returned engine is the input engine. -/
def enginePreview (e : Engine) (input : String) : Engine × Value :=
  let c := cloneCtx e.ctx
  let c := { c with rateCache := e.ctx.rateCache }
  let trimmed := goTrimSpace input
  if trimmed = "" then (e, Value.emptyValue)
  else
    let r := parseLineStr input
    if r.2 ≠ [] then (e, Value.error ((r.2.headD ⟨"", 0⟩).msg))
    else
      let line := { r.1 with raw := input }
      let er := evalLine (evalFuel input) c line
      (e, er.2)



/-- Top-node test: is this expression a `ConversionExpr`? -/
def isConversionExpr : Expr → Bool
  | .conversion _ _ => true
  | _ => false

/-- Top-node test on a parsed line's statement. -/
def stmtTopIsConversion : Option Stmt → Bool
  | some (Stmt.exprStmt e) => isConversionExpr e
  | _ => false


/-- One stored-rate edge of the rate graph (cache.go): the table holds
a rate from `x` to `y`. -/
def rateEdge (tbl : RateTable) (x y : String) : Prop := ∃ r, ((x, y), r) ∈ tbl

/-- `y` is reachable from `x` along stored rates (stored reciprocals are
table entries themselves, so they are edges too). -/
def rateConnected (tbl : RateTable) (x y : String) : Prop :=
  Relation.ReflTransGen (rateEdge tbl) x y


/-- Substring of the input at position `p` of length `len` (the Go spec
round-trip: `input[tok.Pos : tok.Pos+len(tok.Literal)]`). -/
def substr (input : List Char) (p len : Nat) : List Char := (input.drop p).take len

/-- Lexer state invariant maintained by `readChar`: the read head is one
past the current position and `ch` caches the current character. -/
def wfLex (l : Lexer) : Prop :=
  l.readPos = l.pos + 1 ∧ l.ch = l.input.getD l.pos nulChar

/-- Relation between a lexer state and a successor state reached by the
reading helpers: the invariant holds and the input is unchanged. -/
def stepOK (l0 l : Lexer) : Prop := wfLex l ∧ l.input = l0.input

/-- Token kinds whose literal is always emitted verbatim from the input:
fixed operator and punctuation literals, single-character symbol and
illegal tokens, newline and EOF.  NUMBER, PERCENT, IDENTIFIER and
COMMENT literals can be rewritten while reading. -/
def literalFaithfulKinds : List TokType :=
  [.plus, .minus, .star, .power, .slash, .caret, .lparen, .rparen, .equals,
   .comma, .newline, .illegal, .eof, .dollar, .euro, .pound, .yen, .bitcoin, .currencySym]

/-- No binding in the variables map has a special lower-cased name. -/
def goodVars (l : List (String × Value)) : Prop :=
  ∀ p ∈ l, ¬ ((asciiLower p.1) = "_" ∨ (asciiLower p.1) = "ans" ∨ (asciiLower p.1) = "total")

/-! ## Proof infrastructure

The kernel must evaluate the embedded functions on concrete inputs for
the witness and counterexample theorems below; core marks the rational
operations `@[irreducible]`, which only hides them from reduction, so
they are restored to the default reducibility. -/

set_option allowUnsafeReducibility true
attribute [semireducible] Rat.add Rat.sub Rat.mul Rat.div Rat.inv Rat.neg Rat.normalize Rat.maybeNormalize Rat.ofScientific
set_option maxRecDepth 80000

/-! ## Shared lemmas about the map model -/

theorem lookup_put_self {α β : Type} [DecidableEq α] (l : List (α × β)) (k : α) (v : β) :
    lookup (put l k v) k = some v := by
  unfold put lookup
  by_cases h : l.any (fun p => p.1 = k)
  · simp only [if_pos h]
    induction l with
    | nil => simp at h
    | cons p rest ih =>
      by_cases hp : p.1 = k
      · simp [List.find?, hp]
      · have h' : rest.any (fun p => p.1 = k) = true := by
          simp only [List.any_cons, Bool.or_eq_true, decide_eq_true_eq] at h
          rcases h with h | h
          · exact absurd h hp
          · simpa using h
        simp only [List.map_cons, if_neg hp]
        rw [List.find?_cons_of_neg]
        · exact ih h'
        · simp [hp]
  · simp only [if_neg h]
    induction l with
    | nil => simp [List.find?]
    | cons p rest ih =>
      simp only [List.any_cons, Bool.or_eq_true, not_or] at h
      rw [List.cons_append, List.find?_cons_of_neg]
      · exact ih (by simpa using h.2)
      · simpa using h.1

/-! ## Claim theorems -/

/-- Claim C1: the spec requires that adding or subtracting two Currency
operands with different currencies converts the right operand via the
rate cache and errors when no rate exists.  The code's `coerceResult`
takes the same-`Kind` branch first (two currencies always share
`ValueCurrency`), so for every context — whatever rates it holds — and
all amounts and currency descriptors, `$a + b·X` evaluates to the raw
amount sum tagged with the left currency: the conversion code below that
branch is unreachable and the conversion is silently skipped. -/
theorem currencyAdditionSkipsConversion (c : Ctx) (lc rc : Currency) (a b : F) :
    applyBinaryOp c BinaryOp.add (Value.currencyValue a (some lc)) (Value.currencyValue b (some rc))
      = Value.currencyValue (a + b) (some lc) ∧
    applyBinaryOp c BinaryOp.sub (Value.currencyValue a (some lc)) (Value.currencyValue b (some rc))
      = Value.currencyValue (a - b) (some lc) := by
  constructor <;>
    simp [applyBinaryOp, coerceResult, Value.isPercentage, Value.currencyValue,
      Value.asFloat, Value.withAmount, Value.isNumber]

/-- Claim C2: with a Percentage right operand under `+` or `-`, the
result is `base × (1 ± pct)` carried on the left operand's kind and type
descriptor. -/
theorem percentageOpPreservesLeft (c : Ctx) (left right : Value)
    (hl : ¬ left.isError = true) (hr : right.kind = ValueKind.percentage) :
    applyBinaryOp c BinaryOp.add left right = left.withAmount (left.num * (1 + right.num)) ∧
    applyBinaryOp c BinaryOp.sub left right = left.withAmount (left.num * (1 - right.num)) ∧
    ∀ op, op = BinaryOp.add ∨ op = BinaryOp.sub →
      (applyBinaryOp c op left right).kind = left.kind ∧
      (applyBinaryOp c op left right).curr = left.curr ∧
      (applyBinaryOp c op left right).unit = left.unit ∧
      (applyBinaryOp c op left right).metal = left.metal ∧
      (applyBinaryOp c op left right).crypto = left.crypto := by
  have hp : right.isPercentage = true := by simp [Value.isPercentage, hr]
  refine ⟨?_, ?_, ?_⟩
  · simp [applyBinaryOp, hp, applyPercentageOp, Value.asFloat, Value.withAmount]
  · simp [applyBinaryOp, hp, applyPercentageOp, Value.asFloat, Value.withAmount]
  · rintro op (rfl | rfl) <;>
      simp [applyBinaryOp, hp, applyPercentageOp, Value.asFloat, Value.withAmount]

/-- Witness for the C2 theorem at `$100 + 15%` and `$100 - 10%`. -/
theorem percentageOpPreservesLeft_witness :
    applyBinaryOp newContext BinaryOp.add
        (Value.currencyValue 100 (parseCurrency "USD")) (Value.percentage 0.15)
      = (Value.currencyValue 100 (parseCurrency "USD")).withAmount (100 * (1 + 0.15)) ∧
    applyBinaryOp newContext BinaryOp.sub
        (Value.currencyValue 100 (parseCurrency "USD")) (Value.percentage 0.10)
      = (Value.currencyValue 100 (parseCurrency "USD")).withAmount (100 * (1 - 0.10)) := by
  refine ⟨?_, ?_⟩
  · exact (percentageOpPreservesLeft newContext
      (Value.currencyValue 100 (parseCurrency "USD")) (Value.percentage 0.15)
      (by decide) (by decide)).1
  · exact (percentageOpPreservesLeft newContext
      (Value.currencyValue 100 (parseCurrency "USD")) (Value.percentage 0.10)
      (by decide) (by decide)).2.1

/-- Claim C7: division and modulo by an operand whose resolved numeric
value is zero are always errors, for every pair of non-error operands of
any kinds. -/
theorem divModByZeroErrors (c : Ctx) (left right : Value)
    (hl : ¬ left.isError = true) (hr : ¬ right.isError = true) (hz : right.num = 0) :
    applyBinaryOp c BinaryOp.div left right = Value.error "division by zero" ∧
    applyBinaryOp c BinaryOp.mod left right = Value.error "modulo by zero" := by
  constructor <;>
    simp [applyBinaryOp, Value.asFloat, hz]

/-- Witness for the C7 theorem: `$10 / 0` and `5 km mod 0%`. -/
theorem divModByZeroErrors_witness :
    applyBinaryOp newContext BinaryOp.div
        (Value.currencyValue 10 (parseCurrency "USD")) (Value.number 0)
      = Value.error "division by zero" ∧
    applyBinaryOp newContext BinaryOp.mod
        (Value.unitValue 5 (parseUnit "km")) (Value.percentage 0)
      = Value.error "modulo by zero" := by
  refine ⟨?_, ?_⟩
  · exact (divModByZeroErrors newContext
      (Value.currencyValue 10 (parseCurrency "USD")) (Value.number 0)
      (by decide) (by decide) (by decide)).1
  · exact (divModByZeroErrors newContext
      (Value.unitValue 5 (parseUnit "km")) (Value.percentage 0)
      (by decide) (by decide) (by decide)).2
/-! ## Aggregation lemmas (claim C8) -/

theorem sumLoop_ok (l : List Value) (acc : F) (h : ∀ a ∈ l, ¬ a.isError = true) :
    sumLoop l acc = Sum.inr (acc + (l.map Value.num).sum) := by
  induction l generalizing acc with
  | nil => simp [sumLoop]
  | cons a rest ih =>
    have ha := h a (by simp)
    simp only [sumLoop]
    rw [if_neg ha, ih _ (fun b hb => h b (by simp [hb]))]
    congr 1
    simp [Value.asFloat]
    ring

theorem minLoop_selects (l : List Value) (v : Value) (h : ∀ a ∈ l, ¬ a.isError = true) :
    ∃ w, (w = v ∨ w ∈ l) ∧ minLoop l v v.num = w ∧
      w.num ≤ v.num ∧ ∀ b ∈ l, w.num ≤ b.num := by
  induction l generalizing v with
  | nil =>
    refine ⟨v, Or.inl rfl, ?_, le_refl _, by simp⟩
    simp [minLoop, Value.withAmount]
  | cons a rest ih =>
    have ha := h a (by simp)
    by_cases hlt : a.asFloat < v.num
    · obtain ⟨w, hw, heq, hle, hall⟩ := ih a (fun b hb => h b (by simp [hb]))
      refine ⟨w, ?_, ?_, ?_, ?_⟩
      · rcases hw with rfl | hw
        · exact Or.inr (by simp)
        · exact Or.inr (by simp [hw])
      · simp only [minLoop]
        rw [if_neg ha, if_pos hlt]
        exact heq
      · exact le_trans hle (le_of_lt (by simpa [Value.asFloat] using hlt))
      · intro b hb
        rcases List.mem_cons.mp hb with rfl | hb
        · simpa [Value.asFloat] using hle
        · exact hall b hb
    · obtain ⟨w, hw, heq, hle, hall⟩ := ih v (fun b hb => h b (by simp [hb]))
      refine ⟨w, ?_, ?_, hle, ?_⟩
      · rcases hw with rfl | hw
        · exact Or.inl rfl
        · exact Or.inr (by simp [hw])
      · simp only [minLoop]
        rw [if_neg ha, if_neg hlt]
        exact heq
      · intro b hb
        rcases List.mem_cons.mp hb with rfl | hb
        · exact le_trans hle (by simpa [Value.asFloat] using not_lt.mp hlt)
        · exact hall b hb

theorem maxLoop_selects (l : List Value) (v : Value) (h : ∀ a ∈ l, ¬ a.isError = true) :
    ∃ w, (w = v ∨ w ∈ l) ∧ maxLoop l v v.num = w ∧
      v.num ≤ w.num ∧ ∀ b ∈ l, b.num ≤ w.num := by
  induction l generalizing v with
  | nil =>
    refine ⟨v, Or.inl rfl, ?_, le_refl _, by simp⟩
    simp [maxLoop, Value.withAmount]
  | cons a rest ih =>
    have ha := h a (by simp)
    by_cases hlt : v.num < a.asFloat
    · obtain ⟨w, hw, heq, hle, hall⟩ := ih a (fun b hb => h b (by simp [hb]))
      refine ⟨w, ?_, ?_, ?_, ?_⟩
      · rcases hw with rfl | hw
        · exact Or.inr (by simp)
        · exact Or.inr (by simp [hw])
      · simp only [maxLoop]
        rw [if_neg ha, if_pos hlt]
        exact heq
      · exact le_trans (le_of_lt (by simpa [Value.asFloat] using hlt)) hle
      · intro b hb
        rcases List.mem_cons.mp hb with rfl | hb
        · simpa [Value.asFloat] using hle
        · exact hall b hb
    · obtain ⟨w, hw, heq, hle, hall⟩ := ih v (fun b hb => h b (by simp [hb]))
      refine ⟨w, ?_, ?_, hle, ?_⟩
      · rcases hw with rfl | hw
        · exact Or.inl rfl
        · exact Or.inr (by simp [hw])
      · simp only [maxLoop]
        rw [if_neg ha, if_neg hlt]
        exact heq
      · intro b hb
        rcases List.mem_cons.mp hb with rfl | hb
        · exact le_trans (by simpa [Value.asFloat] using not_lt.mp hlt) hle
        · exact hall b hb

/-- Claim C8 (amended): for a non-empty list of non-error arguments,
`sum` and `avg` carry the first argument's kind and type descriptor, but
`min` and `max` return the argument holding the running extremum — its
kind, not the first argument's. -/
theorem aggregationTypes (a0 : Value) (rest : List Value)
    (h : ∀ a ∈ a0 :: rest, ¬ a.isError = true) :
    fnSum (a0 :: rest) = a0.withAmount (((a0 :: rest).map Value.num).sum) ∧
    fnAvg (a0 :: rest)
      = a0.withAmount ((((a0 :: rest).map Value.num).sum) / ((a0 :: rest).length : F)) ∧
    (∃ w ∈ a0 :: rest, fnMin (a0 :: rest) = w ∧ ∀ b ∈ a0 :: rest, w.num ≤ b.num) ∧
    (∃ w ∈ a0 :: rest, fnMax (a0 :: rest) = w ∧ ∀ b ∈ a0 :: rest, b.num ≤ w.num) := by
  have hsum : fnSum (a0 :: rest) = a0.withAmount (((a0 :: rest).map Value.num).sum) := by
    simp only [fnSum]
    rw [sumLoop_ok _ _ h]
    simp
  refine ⟨hsum, ?_, ?_, ?_⟩
  · have herr : ¬ ((a0.withAmount (((a0 :: rest).map Value.num).sum)).isError) = true := by
      have := h a0 (by simp)
      simpa [Value.withAmount, Value.isError] using this
    simp only [fnAvg]
    rw [hsum, if_neg herr]
    simp [Value.withAmount, Value.asFloat]
  · obtain ⟨w, hw, heq, hle, hall⟩ :=
      minLoop_selects rest a0 (fun b hb => h b (by simp [hb]))
    refine ⟨w, ?_, ?_, ?_⟩
    · rcases hw with rfl | hw
      · simp
      · simp [hw]
    · simpa [fnMin, Value.asFloat] using heq
    · intro b hb
      rcases List.mem_cons.mp hb with rfl | hb
      · exact hle
      · exact hall b hb
  · obtain ⟨w, hw, heq, hle, hall⟩ :=
      maxLoop_selects rest a0 (fun b hb => h b (by simp [hb]))
    refine ⟨w, ?_, ?_, ?_⟩
    · rcases hw with rfl | hw
      · simp
      · simp [hw]
    · simpa [fnMax, Value.asFloat] using heq
    · intro b hb
      rcases List.mem_cons.mp hb with rfl | hb
      · exact hle
      · exact hall b hb

/-- Counterexample for claim C8 as stated: `min(5, $3)` returns the
Currency argument, not a value of the first argument's (Number) kind. -/
theorem aggregationTypes_cex :
    fnMin [Value.number 5, Value.currencyValue 3 (some ⟨"USD", "$", "US Dollar",
        ["dollar", "dollars", "usd", "bucks", "buck"], false⟩)]
      = Value.currencyValue 3 (some ⟨"USD", "$", "US Dollar",
        ["dollar", "dollars", "usd", "bucks", "buck"], false⟩) ∧
    (fnMin [Value.number 5, Value.currencyValue 3 (some ⟨"USD", "$", "US Dollar",
        ["dollar", "dollars", "usd", "bucks", "buck"], false⟩)]).kind
      ≠ (Value.number 5).kind := by
  constructor
  · decide
  · decide

/-- Witness for the C8 theorem at `sum($3, 5)` / `min(5, $3)`. -/
theorem aggregationTypes_witness :
    fnSum [Value.currencyValue 3 none, Value.number 5]
      = (Value.currencyValue 3 none).withAmount 8 ∧
    (∃ w ∈ [Value.number 5, Value.currencyValue 3 none],
      fnMin [Value.number 5, Value.currencyValue 3 none] = w ∧
      ∀ b ∈ [Value.number 5, Value.currencyValue 3 none], w.num ≤ b.num) := by
  have h := aggregationTypes (Value.currencyValue 3 none) [Value.number 5] (by decide)
  have h2 := aggregationTypes (Value.number 5) [Value.currencyValue 3 none] (by decide)
  refine ⟨?_, h2.2.2.1⟩
  have h1 := h.1
  rw [show ((([Value.currencyValue 3 none, Value.number 5]).map Value.num).sum) = (8 : F) by decide] at h1
  exact h1
/-! ## Rate-table reciprocal invariant (claim C4) -/

/-- Claim C4 (amended): `SetRate(A,B,r)` with `r ≠ 0` also stores the
reciprocal `(B,A) = 1/r`, and `GetRate(A,A)` is always `1.0` without a
table lookup; however identity pairs can appear in the stored table
(`SetRate(A,A,·)` stores one, and `loadDefaults` stores `(USD,USD)`),
contrary to the claim's final conjunct. -/
theorem setRateReciprocal :
    (∀ (tbl : RateTable) (A B : String) (r : F), r ≠ 0 →
      lookup (setRate tbl A B r) (asciiUpper B, asciiUpper A) = some (1 / r)) ∧
    (∀ (tbl : RateTable) (A : String), getRate tbl A A = some 1) := by
  constructor
  · intro tbl A B r hr
    unfold setRate
    rw [if_pos hr]
    exact lookup_put_self _ _ _
  · intro tbl A
    simp [getRate]

/-- Witness for the C4 theorem at `SetRate("EUR","USD",2)` on the empty
table and `GetRate("JPY","JPY")` on the default table. -/
theorem setRateReciprocal_witness :
    lookup (setRate [] "EUR" "USD" 2) (asciiUpper "USD", asciiUpper "EUR") = some (1 / 2) ∧
    getRate cacheNew "JPY" "JPY" = some 1 :=
  ⟨setRateReciprocal.1 [] "EUR" "USD" 2 (by norm_num), setRateReciprocal.2 cacheNew "JPY"⟩

/-- Counterexample for claim C4 as stated: identity pairs are stored —
`SetRate("USD","USD",2)` leaves `(USD,USD)` in the table (holding the
reciprocal `1/2`), and the fallback table built by `loadDefaults`
contains `(USD,USD) = 1.0`. -/
theorem setRateReciprocal_cex :
    lookup (setRate [] "USD" "USD" 2) ("USD", "USD") = some (1 / 2) ∧
    lookup cacheNew ("USD", "USD") = some 1 := by
  exact ⟨by rfl, by rfl⟩

/-! ## Special variable names (claim C10) -/

theorem put_subset_keys {α β : Type} [DecidableEq α] (l : List (α × β)) (k : α) (v : β)
    (q : α × β) (hq : q ∈ put l k v) : q ∈ l ∨ q.1 = k := by
  unfold put at hq
  by_cases h : l.any (fun p => p.1 = k)
  · rw [if_pos h] at hq
    obtain ⟨p, hp, hpq⟩ := List.mem_map.mp hq
    by_cases hpk : p.1 = k
    · rw [if_pos hpk] at hpq
      right
      rw [← hpq]
    · rw [if_neg hpk] at hpq
      left
      rw [← hpq]
      exact hp
  · rw [if_neg h] at hq
    rcases List.mem_append.mp hq with hq | hq
    · exact Or.inl hq
    · right
      simp only [List.mem_singleton] at hq
      rw [hq]

/-- Claim C10: `SetVariable` on a name whose lower-cased form is `_`,
`ans` or `total` leaves the context unchanged (so does an assignment
statement to that name); `SetVariable` preserves the invariant that no
such key is ever in the variables map (and it is the map's only writer,
`NewContext` starting empty); and those names always resolve through
their special meanings — previous result or computed total — never
through the variables map. -/
theorem specialNamesNeverStored :
    (∀ (c : Ctx) (name : String) (v : Value),
      ((asciiLower name) = "_" ∨ (asciiLower name) = "ans" ∨ (asciiLower name) = "total") →
      setVariable c name v = c) ∧
    (∀ (c : Ctx) (name : String) (e : Expr) (fuel : Nat),
      ((asciiLower name) = "_" ∨ (asciiLower name) = "ans" ∨ (asciiLower name) = "total") →
      (evalAssign fuel c name e).1.vars = c.vars) ∧
    (∀ (c : Ctx) (name : String) (v : Value),
      goodVars c.vars → goodVars (setVariable c name v).vars) ∧
    goodVars newContext.vars ∧
    (∀ (fuel : Nat) (c : Ctx) (line : Line),
      goodVars c.vars → goodVars (evalLine fuel c line).1.vars) ∧
    (∀ (c : Ctx) (name : String),
      ((asciiLower name) = "_" ∨ (asciiLower name) = "ans") →
      getVariable c name
        = (if ¬ c.previous.isEmpty = true then (c.previous, true) else (Value.emptyValue, false))) ∧
    (∀ (c : Ctx) (name : String),
      (asciiLower name) = "total" → getVariable c name = (calculateTotal c, true)) := by
  have hset : ∀ (c : Ctx) (name : String) (v : Value),
      ((asciiLower name) = "_" ∨ (asciiLower name) = "ans" ∨ (asciiLower name) = "total") →
      setVariable c name v = c := by
    intro c name v h
    unfold setVariable
    rcases h with h | h | h <;> simp [h]
  have hpres : ∀ (c : Ctx) (name : String) (v : Value),
      goodVars c.vars → goodVars (setVariable c name v).vars := by
    intro c name v hg
    unfold setVariable
    by_cases h : (asciiLower name) = "_" ∨ (asciiLower name) = "ans" ∨ (asciiLower name) = "total"
    · rcases h with h | h | h <;> simp [h, hg]
    · push_neg at h
      rw [if_neg (by simpa using h)]
      intro p hp
      rcases put_subset_keys c.vars name v p hp with hmem | hkey
      · exact hg p hmem
      · rw [hkey]
        simpa using h
  have hassign : ∀ (c : Ctx) (name : String) (e : Expr) (fuel : Nat),
      ((asciiLower name) = "_" ∨ (asciiLower name) = "ans" ∨ (asciiLower name) = "total") →
      (evalAssign fuel c name e).1.vars = c.vars := by
    intro c name e fuel h
    unfold evalAssign
    by_cases herr : (evalExprF fuel c e).isError = true
    · simp [herr]
    · simp only [herr]
      rw [hset c name _ h]
      simp
  refine ⟨hset, hassign, hpres, ?_, ?_, ?_, ?_⟩
  · intro p hp
    simp [newContext] at hp
  · intro fuel c line hg
    unfold evalLine
    match hstmt : line.stmt with
    | none => exact hg
    | some stmt =>
      have hstep : ∀ st, goodVars c.vars → goodVars (evalStmt fuel c st).1.vars := by
        intro st hg'
        match st with
        | .emptyStmt => exact hg'
        | .commentStmt _ => exact hg'
        | .exprStmt e => exact hg'
        | .assign name e =>
          simp only [evalStmt]
          unfold evalAssign
          by_cases herr : (evalExprF fuel c e).isError = true
          · simp only [Bool.not_eq_true, herr]
            simpa using hg'
          · simp only [herr]
            rw [if_pos (by simp [herr])]
            exact hpres c name _ hg'
      simp only
      have h1 := hstep stmt hg
      cases stmt <;>
        first
        | (rename_i e
           cases e <;>
             simp_all [addLineResult, setPrevious, markLastConsumed] <;>
             split <;> simp_all)
        | simp_all [addLineResult, setPrevious, markLastConsumed] <;> split <;> simp_all
  · intro c name h
    simp only [getVariable]
    rcases h with h | h <;> rw [h] <;> simp
  · intro c name h
    simp only [getVariable]
    rw [h]
    simp

/-- Witness for the C10 theorem at name `ANS` (and `Total` for the
resolution part). -/
theorem specialNamesNeverStored_witness :
    setVariable newContext "ANS" (Value.number 5) = newContext ∧
    getVariable newContext "Total" = (calculateTotal newContext, true) :=
  ⟨specialNamesNeverStored.1 newContext "ANS" (Value.number 5) (Or.inr (Or.inl rfl)),
   specialNamesNeverStored.2.2.2.2.2.2 newContext "Total" rfl⟩

/-! ## EvalPreview frame property (claim C6) -/

/-- Claim C6: `EvalPreview` evaluates against a clone and never mutates
the session: the engine state after a preview is the input state (so its
variables, previous result and line history are unchanged), `Clone`
itself reproduces the context exactly, and every subsequent `Eval` or
`EvalPreview` on the same context returns exactly what it would have
returned had the preview not happened. -/
theorem evalPreviewDoesNotMutate (e : Engine) (input : String) :
    (enginePreview e input).1 = e ∧
    (∀ c : Ctx, cloneCtx c = c) ∧
    (∀ t, engineEval (enginePreview e input).1 t = engineEval e t) ∧
    (∀ t, enginePreview (enginePreview e input).1 t = enginePreview e t) := by
  have hclone : ∀ c : Ctx, cloneCtx c = c := by
    intro c
    cases c
    rfl
  have h1 : (enginePreview e input).1 = e := by
    unfold enginePreview
    dsimp only
    split
    · rfl
    · split
      · rfl
      · rfl
  exact ⟨h1, hclone, fun t => by rw [h1], fun t => by rw [h1]⟩

/-! ## Conversion-suffix attachment (claim C5) -/

/-- Counterexample for claim C5 as stated: parsing `a + b in EUR` (with
no parse errors) does not yield a `ConversionExpr` at the top of the
tree — the conversion is buried inside the binary expression. -/
theorem conversionSuffix_cex :
    stmtTopIsConversion (parseLineStr "a + b in EUR").1.stmt = false ∧
    (parseLineStr "a + b in EUR").2 = [] := by
  exact ⟨by rfl, by rfl⟩

/-- Claim C5 (amended): a trailing `in IDENT` (or `to IDENT`) is
consumed by the innermost recursive `parseBinaryExpr` call, so it
attaches to the right operand of the last binary operator, not to the
whole expression: `a + b in EUR` parses (without errors) as
`BinaryExpr(a, +, ConversionExpr(b, EUR))`, and likewise with the `to`
keyword and with other operators. -/
theorem conversionSuffixAttachesRight :
    ((parseLineStr "a + b in EUR").1.stmt
      = some (Stmt.exprStmt (Expr.binary (Expr.ident "a") BinaryOp.add
          (Expr.conversion (Expr.ident "b") "EUR")))
      ∧ (parseLineStr "a + b in EUR").2 = []) ∧
    ((parseLineStr "a + b to GBP").1.stmt
      = some (Stmt.exprStmt (Expr.binary (Expr.ident "a") BinaryOp.add
          (Expr.conversion (Expr.ident "b") "GBP")))
      ∧ (parseLineStr "a + b to GBP").2 = []) ∧
    ((parseLineStr "a * b in EUR").1.stmt
      = some (Stmt.exprStmt (Expr.binary (Expr.ident "a") BinaryOp.mul
          (Expr.conversion (Expr.ident "b") "EUR")))
      ∧ (parseLineStr "a * b in EUR").2 = []) := by
  exact ⟨⟨by rfl, by rfl⟩, ⟨by rfl, by rfl⟩, ⟨by rfl, by rfl⟩⟩

/-! ## BFS multi-hop rate lookup (claim C3) -/

theorem lookup_mem {α β : Type} [DecidableEq α] {l : List (α × β)} {k : α} {v : β}
    (h : lookup l k = some v) : (k, v) ∈ l := by
  unfold lookup at h
  cases hf : List.find? (fun p => p.1 = k) l with
  | none => rw [hf] at h; simp at h
  | some p =>
    rw [hf] at h
    simp only [Option.map_some'] at h
    have hmem := List.mem_of_find?_eq_some hf
    have hk := List.find?_some hf
    simp only [decide_eq_true_eq] at hk
    have hp : p = (k, v) := by
      cases p with
      | mk p1 p2 => simp only at hk h; rw [hk, Option.some.inj h]
    rw [← hp]
    exact hmem

theorem bfsScan_sound (tbl : RateTable) (toC f : String) :
    ∀ (sub : RateTable) (cur : String × F) (queue : List (String × F)) (visited : List String),
      (∀ e ∈ sub, e ∈ tbl) →
      rateConnected tbl f cur.1 →
      (∀ e ∈ queue, rateConnected tbl f e.1) →
      ((∀ r, (bfsScan cur toC sub queue visited).1 = some r → rateConnected tbl f toC) ∧
       (∀ e ∈ (bfsScan cur toC sub queue visited).2.1, rateConnected tbl f e.1)) := by
  intro sub cur
  induction sub with
  | nil =>
    intro queue visited _ _ hq
    exact ⟨fun r hr => by simp [bfsScan] at hr,
           fun e he => hq e (by simpa [bfsScan] using he)⟩
  | cons hd tl ih =>
    intro queue visited hsub hcur hq
    obtain ⟨pair, rate⟩ := hd
    have hsub' : ∀ e ∈ tl, e ∈ tbl := fun e he => hsub e (List.mem_cons_of_mem _ he)
    by_cases hne : pair.1 ≠ cur.1
    · simpa [bfsScan, if_pos hne] using ih queue visited hsub' hcur hq
    · push_neg at hne
      have hedge : rateEdge tbl cur.1 pair.2 := by
        refine ⟨rate, ?_⟩
        have := hsub (pair, rate) (List.mem_cons_self _ _)
        rwa [show pair = (cur.1, pair.2) by rw [← hne]] at this
      have hnext : rateConnected tbl f pair.2 :=
        Relation.ReflTransGen.tail hcur hedge
      by_cases hto : pair.2 = toC
      · constructor
        · intro r _
          exact hto ▸ hnext
        · intro e he
          refine hq e ?_
          simpa [bfsScan, hne, hto] using he
      · by_cases hvis : pair.2 ∈ visited
        · simpa [bfsScan, hne, hto, hvis] using ih queue visited hsub' hcur hq
        · have hq' : ∀ e ∈ queue ++ [(pair.2, cur.2 * rate)], rateConnected tbl f e.1 := by
            intro e he
            rcases List.mem_append.mp he with h | h
            · exact hq e h
            · simp only [List.mem_singleton] at h
              rw [h]
              exact hnext
          simpa [bfsScan, hne, hto, hvis] using
            ih (queue ++ [(pair.2, cur.2 * rate)]) (visited ++ [pair.2]) hsub' hcur hq'

theorem bfsLoop_sound (tbl : RateTable) (toC f : String) :
    ∀ (fuel : Nat) (queue : List (String × F)) (visited : List String),
      (∀ e ∈ queue, rateConnected tbl f e.1) →
      ∀ r, bfsLoop tbl toC fuel queue visited = some r → rateConnected tbl f toC := by
  intro fuel
  induction fuel with
  | zero => intro queue visited _ r hr; simp [bfsLoop] at hr
  | succ n ih =>
    intro queue visited hq r hr
    cases queue with
    | nil => simp [bfsLoop] at hr
    | cons cur rest =>
      have hs := bfsScan_sound tbl toC f tbl cur rest visited (fun _ he => he)
        (hq cur (List.mem_cons_self _ _)) (fun e he => hq e (List.mem_cons_of_mem _ he))
      simp only [bfsLoop] at hr
      cases hmatch : bfsScan cur toC tbl rest visited with
      | mk o qv =>
        rw [hmatch] at hr
        cases o with
        | some rr => exact hs.1 rr (by rw [hmatch])
        | none =>
          exact ih qv.1 qv.2 (fun e he => hs.2 e (by rw [hmatch]; exact he)) r hr

/-- Claim C3: with exactly the entries induced by `SetRate(A,B,r1)` and
`SetRate(B,C,r2)` for distinct (uppercased) codes and nonzero rates,
`GetRate(A,C)` returns `r1*r2` found by the breadth-first search; and
for codes not connected by any path of stored rates, `GetRate` reports
not-found (`none`) rather than any numeric value. -/
theorem getRateBFSMultiHop :
    (∀ (A B C : String) (r1 r2 : F), r1 ≠ 0 → r2 ≠ 0 →
      asciiUpper A ≠ asciiUpper B → asciiUpper B ≠ asciiUpper C →
      asciiUpper A ≠ asciiUpper C →
      getRate (setRate (setRate [] A B r1) B C r2) A C = some (r1 * r2)) ∧
    (∀ (tbl : RateTable) (X Y : String),
      ¬ rateConnected tbl (asciiUpper X) (asciiUpper Y) →
      getRate tbl X Y = none) := by
  constructor
  · intro A B C r1 r2 h1 h2 hab hbc hac
    have hba := Ne.symm hab
    have hcb := Ne.symm hbc
    have hca := Ne.symm hac
    have htbl : setRate (setRate [] A B r1) B C r2
        = [((asciiUpper A, asciiUpper B), r1), ((asciiUpper B, asciiUpper A), 1/r1),
           ((asciiUpper B, asciiUpper C), r2), ((asciiUpper C, asciiUpper B), 1/r2)] := by
      simp only [setRate]
      rw [if_pos h1, if_pos h2]
      simp [put, Prod.mk.injEq, hab, hba, hbc, hcb, hac, hca]
    rw [htbl]
    simp only [getRate]
    rw [if_neg hac]
    have hlook : lookup [((asciiUpper A, asciiUpper B), r1), ((asciiUpper B, asciiUpper A), 1/r1),
        ((asciiUpper B, asciiUpper C), r2), ((asciiUpper C, asciiUpper B), 1/r2)]
        (asciiUpper A, asciiUpper C) = none := by
      simp [lookup, Prod.mk.injEq, hab, hba, hbc, hcb, hac, hca]
    rw [hlook]
    show findRateBFS _ _ _ = _
    simp only [findRateBFS]
    have hs1 : bfsScan (asciiUpper A, 1) (asciiUpper C)
        [((asciiUpper A, asciiUpper B), r1), ((asciiUpper B, asciiUpper A), 1/r1),
         ((asciiUpper B, asciiUpper C), r2), ((asciiUpper C, asciiUpper B), 1/r2)]
        [] [asciiUpper A]
        = (none, [(asciiUpper B, r1)], [asciiUpper A, asciiUpper B]) := by
      simp [bfsScan, hab, hba, hbc, hcb, hac, hca]
    have hs2 : bfsScan (asciiUpper B, r1) (asciiUpper C)
        [((asciiUpper A, asciiUpper B), r1), ((asciiUpper B, asciiUpper A), 1/r1),
         ((asciiUpper B, asciiUpper C), r2), ((asciiUpper C, asciiUpper B), 1/r2)]
        [] [asciiUpper A, asciiUpper B]
        = (some (r1 * r2), [], [asciiUpper A, asciiUpper B]) := by
      simp [bfsScan, hab, hba, hbc, hcb, hac, hca]
    rw [show ([((asciiUpper A, asciiUpper B), r1), ((asciiUpper B, asciiUpper A), 1/r1),
         ((asciiUpper B, asciiUpper C), r2), ((asciiUpper C, asciiUpper B), 1/r2)] : RateTable).length + 2
        = 5 + 1 from rfl]
    simp only [bfsLoop]
    rw [hs1]
    show bfsLoop _ _ 5 _ _ = _
    rw [show (5 : Nat) = 4 + 1 from rfl]
    simp only [bfsLoop]
    rw [hs2]
  · intro tbl X Y hnc
    have hne : asciiUpper X ≠ asciiUpper Y := by
      intro h
      exact hnc (h ▸ Relation.ReflTransGen.refl)
    simp only [getRate]
    rw [if_neg hne]
    cases hl : lookup tbl (asciiUpper X, asciiUpper Y) with
    | some r =>
      exact absurd (Relation.ReflTransGen.single ⟨r, lookup_mem hl⟩) hnc
    | none =>
      cases hb : findRateBFS tbl (asciiUpper X) (asciiUpper Y) with
      | none => rfl
      | some r =>
        refine absurd (bfsLoop_sound tbl (asciiUpper Y) (asciiUpper X)
          (tbl.length + 2) [(asciiUpper X, 1)] [asciiUpper X] ?_ r hb) hnc
        intro e he
        simp only [List.mem_singleton] at he
        rw [he]
        exact Relation.ReflTransGen.refl

/-- Witness for the C3 theorem: two hops `EUR→USD→GBP` with rates 2 and
3 yield `GetRate(EUR,GBP) = 6`, and on the empty table `GetRate` of two
unrelated codes reports not-found. -/
theorem getRateBFSMultiHop_witness :
    getRate (setRate (setRate [] "EUR" "USD" 2) "USD" "GBP" 3) "EUR" "GBP" = some 6 ∧
    getRate ([] : RateTable) "AAA" "BBB" = none := by
  constructor
  · have h := getRateBFSMultiHop.1 "EUR" "USD" "GBP" 2 3 (by norm_num) (by norm_num)
      (by decide) (by decide) (by decide)
    rw [h]
    norm_num
  · refine getRateBFSMultiHop.2 [] "AAA" "BBB" ?_
    intro hc
    rcases Relation.ReflTransGen.cases_head hc with heq | ⟨z, hz, _⟩
    · exact absurd heq (by decide)
    · obtain ⟨r, hr⟩ := hz
      exact absurd hr (List.not_mem_nil _)

/-! ## Lexer literal round-trip (claim C9) -/

theorem stepTrans {a b c : Lexer} (h1 : stepOK a b) (h2 : stepOK b c) : stepOK a c :=
  ⟨h2.1, h2.2.trans h1.2⟩

theorem stepSelf {l : Lexer} (h : wfLex l) : stepOK l l := ⟨h, rfl⟩

theorem step_ite_pair {l0 : Lexer} {c : Prop} [Decidable c] {a b : Lexer × List Char}
    (ha : stepOK l0 a.1) (hb : stepOK l0 b.1) : stepOK l0 (if c then a else b).1 := by
  split
  · exact ha
  · exact hb

theorem readChar_step (l : Lexer) : stepOK l (readChar l) := by
  unfold stepOK wfLex readChar
  dsimp only
  split
  · exact ⟨⟨rfl, rfl⟩, rfl⟩
  · exact ⟨⟨rfl, rfl⟩, rfl⟩

theorem skipWhitespace_step : ∀ (fuel : Nat) (l : Lexer), wfLex l →
    stepOK l (skipWhitespace fuel l) := by
  intro fuel
  induction fuel with
  | zero => intro l h; exact stepSelf h
  | succ n ih =>
    intro l h
    simp only [skipWhitespace]
    split
    · exact stepTrans (readChar_step l) (ih (readChar l) (readChar_step l).1)
    · exact stepSelf h

theorem readIntPart_step : ∀ (fuel : Nat) (l : Lexer) (sb : List Char) (hd : Bool),
    wfLex l → stepOK l (readIntPart fuel l sb hd).1 := by
  intro fuel
  induction fuel with
  | zero => intro l sb hd h; exact stepSelf h
  | succ n ih =>
    intro l sb hd h
    simp only [readIntPart]
    split
    · split
      · split
        · exact stepSelf h
        · exact stepTrans (readChar_step l) (ih _ _ _ (readChar_step l).1)
      · exact stepTrans (readChar_step l) (ih _ _ _ (readChar_step l).1)
    · exact stepSelf h

theorem readDigits_step : ∀ (fuel : Nat) (l : Lexer) (sb : List Char),
    wfLex l → stepOK l (readDigits fuel l sb).1 := by
  intro fuel
  induction fuel with
  | zero => intro l sb h; exact stepSelf h
  | succ n ih =>
    intro l sb h
    simp only [readDigits]
    split
    · exact stepTrans (readChar_step l) (ih _ _ (readChar_step l).1)
    · exact stepSelf h

theorem readWordChars_step : ∀ (fuel : Nat) (l : Lexer) (sb : List Char),
    wfLex l → stepOK l (readWordChars fuel l sb).1 := by
  intro fuel
  induction fuel with
  | zero => intro l sb h; exact stepSelf h
  | succ n ih =>
    intro l sb h
    simp only [readWordChars]
    split
    · exact stepTrans (readChar_step l) (ih _ _ (readChar_step l).1)
    · exact stepSelf h

theorem readLetters_step : ∀ (fuel : Nat) (l : Lexer) (sb : List Char),
    wfLex l → stepOK l (readLetters fuel l sb).1 := by
  intro fuel
  induction fuel with
  | zero => intro l sb h; exact stepSelf h
  | succ n ih =>
    intro l sb h
    simp only [readLetters]
    split
    · exact stepTrans (readChar_step l) (ih _ _ (readChar_step l).1)
    · exact stepSelf h

theorem readCommentBody_step : ∀ (fuel : Nat) (l : Lexer) (sb : List Char),
    wfLex l → stepOK l (readCommentBody fuel l sb).1 := by
  intro fuel
  induction fuel with
  | zero => intro l sb h; exact stepSelf h
  | succ n ih =>
    intro l sb h
    simp only [readCommentBody]
    split
    · exact stepTrans (readChar_step l) (ih _ _ (readChar_step l).1)
    · exact stepSelf h

theorem stepComp_readChar {l0 x : Lexer} (hx : stepOK l0 x) : stepOK l0 (readChar x) :=
  stepTrans hx (readChar_step x)

theorem stepComp_skipWhitespace {l0 x : Lexer} (f : Nat) (hx : stepOK l0 x) :
    stepOK l0 (skipWhitespace f x) :=
  stepTrans hx (skipWhitespace_step f x hx.1)

theorem stepComp_readIntPart {l0 x : Lexer} (f : Nat) (sb : List Char) (hd : Bool)
    (hx : stepOK l0 x) : stepOK l0 (readIntPart f x sb hd).1 :=
  stepTrans hx (readIntPart_step f x sb hd hx.1)

theorem stepComp_readDigits {l0 x : Lexer} (f : Nat) (sb : List Char)
    (hx : stepOK l0 x) : stepOK l0 (readDigits f x sb).1 :=
  stepTrans hx (readDigits_step f x sb hx.1)

theorem stepComp_readWordChars {l0 x : Lexer} (f : Nat) (sb : List Char)
    (hx : stepOK l0 x) : stepOK l0 (readWordChars f x sb).1 :=
  stepTrans hx (readWordChars_step f x sb hx.1)

theorem stepComp_readLetters {l0 x : Lexer} (f : Nat) (sb : List Char)
    (hx : stepOK l0 x) : stepOK l0 (readLetters f x sb).1 :=
  stepTrans hx (readLetters_step f x sb hx.1)

theorem stepComp_readCommentBody {l0 x : Lexer} (f : Nat) (sb : List Char)
    (hx : stepOK l0 x) : stepOK l0 (readCommentBody f x sb).1 :=
  stepTrans hx (readCommentBody_step f x sb hx.1)

theorem tryWords_step : ∀ (fuel : Nat) (expected : List String) (l : Lexer)
    (words : List String), wfLex l → stepOK l (tryWords fuel l words expected).2 := by
  intro fuel expected
  induction expected with
  | nil => intro l words h; exact stepSelf h
  | cons e rest ih =>
    intro l words h
    simp only [tryWords]
    have hs := skipWhitespace_step fuel l h
    split
    · exact hs
    · have hr := stepTrans hs (readLetters_step fuel _ [] hs.1)
      split
      · exact stepTrans hr (ih _ _ hr.1)
      · refine ⟨⟨rfl, ?_⟩, hr.2⟩
        dsimp only
        split
        · rfl
        · rw [List.getD_eq_default]
          omega

theorem tryReadMultiWord_step (l : Lexer) (first : String) (h : wfLex l) :
    stepOK l (tryReadMultiWord l first).2 := by
  unfold tryReadMultiWord
  dsimp only
  cases hl : lookup multiWordContinuations (asciiLower first) with
  | none => exact stepSelf h
  | some ws =>
    dsimp only
    split
    · exact stepSelf h
    · exact tryWords_step _ ws l [first] h

theorem readIdentifier_step (l : Lexer) (s : Int) (h : wfLex l) :
    stepOK l (readIdentifier l s).2 := by
  unfold readIdentifier
  dsimp only
  have hr := readWordChars_step (l.input.length + 1) l [] h
  split
  · exact hr
  · split
    · exact stepTrans hr (tryReadMultiWord_step _ _ hr.1)
    · exact stepTrans hr (tryReadMultiWord_step _ _ hr.1)

set_option maxHeartbeats 2000000 in
theorem readNumber_step (l : Lexer) (s : Int) (h : wfLex l) :
    stepOK l (readNumber l s).2 := by
  unfold readNumber
  dsimp only
  generalize l.input.length + 1 = f
  repeat' split
  all_goals
    try dsimp only
  all_goals
    repeat' first
      | exact stepSelf h
      | apply stepComp_readChar
      | apply stepComp_readDigits
      | apply stepComp_readIntPart

theorem readComment_step (l : Lexer) (s : Int) (h : wfLex l) :
    stepOK l (readComment l s).2 := by
  unfold readComment
  dsimp only
  repeat' split
  all_goals
    try dsimp only
  all_goals
    repeat' first
      | exact stepSelf h
      | apply stepComp_readChar
      | apply stepComp_readCommentBody

theorem readCurrencySymbol_step (l : Lexer) (s : Int) (h : wfLex l) :
    stepOK l (readCurrencySymbol l s).2 := by
  unfold readCurrencySymbol
  dsimp only
  exact readChar_step l

theorem nextToken_step (l : Lexer) (h : wfLex l) : stepOK l (nextToken l).2 := by
  unfold nextToken
  dsimp only
  generalize hgen : skipWhitespace (l.input.length + 1) l = l1
  have hs : stepOK l l1 := hgen ▸ skipWhitespace_step (l.input.length + 1) l h
  by_cases h1 : l1.ch = nulChar
  · rw [if_pos h1]; exact hs
  · rw [if_neg h1]
    by_cases h2 : l1.ch = '#' ∨ (l1.ch = '/' ∧ peekChar l1 = '/')
    · rw [if_pos h2]; exact stepTrans hs (readComment_step _ _ hs.1)
    · rw [if_neg h2]
      by_cases h3 : isCurrencySymbolRune l1.ch ∨ isCryptoSymbolRune l1.ch
      · rw [if_pos h3]; exact stepTrans hs (readCurrencySymbol_step _ _ hs.1)
      · rw [if_neg h3]
        by_cases h4 : isDigit l1.ch ∨ (l1.ch = '.' ∧ isDigit (peekChar l1))
        · rw [if_pos h4]; exact stepTrans hs (readNumber_step _ _ hs.1)
        · rw [if_neg h4]
          by_cases h5 : l1.ch = '+'
          · rw [if_pos h5]; exact stepComp_readChar hs
          · rw [if_neg h5]
            by_cases h6 : l1.ch = '-'
            · rw [if_pos h6]
              by_cases h6b : isDigit (peekChar l1) ∧ isStartOfExpression l1
              · rw [if_pos h6b]; exact stepTrans hs (readNumber_step _ _ hs.1)
              · rw [if_neg h6b]; exact stepComp_readChar hs
            · rw [if_neg h6]
              by_cases h7 : l1.ch = '*'
              · rw [if_pos h7]
                by_cases h7b : peekChar l1 = '*'
                · rw [if_pos h7b]; exact stepComp_readChar (stepComp_readChar hs)
                · rw [if_neg h7b]; exact stepComp_readChar hs
              · rw [if_neg h7]
                by_cases h8 : l1.ch = '/'
                · rw [if_pos h8]; exact stepComp_readChar hs
                · rw [if_neg h8]
                  by_cases h9 : l1.ch = '^'
                  · rw [if_pos h9]; exact stepComp_readChar hs
                  · rw [if_neg h9]
                    by_cases h10 : l1.ch = '('
                    · rw [if_pos h10]; exact stepComp_readChar hs
                    · rw [if_neg h10]
                      by_cases h11 : l1.ch = ')'
                      · rw [if_pos h11]; exact stepComp_readChar hs
                      · rw [if_neg h11]
                        by_cases h12 : l1.ch = '='
                        · rw [if_pos h12]; exact stepComp_readChar hs
                        · rw [if_neg h12]
                          by_cases h13 : l1.ch = ','
                          · rw [if_pos h13]; exact stepComp_readChar hs
                          · rw [if_neg h13]
                            by_cases h14 : l1.ch = '%'
                            · rw [if_pos h14]; exact stepComp_readChar hs
                            · rw [if_neg h14]
                              by_cases h15 : l1.ch = '\n'
                              · rw [if_pos h15]; exact stepComp_readChar hs
                              · rw [if_neg h15]
                                by_cases h16 : isLetter l1.ch ∨ l1.ch = '_'
                                · rw [if_pos h16]
                                  exact stepTrans hs (readIdentifier_step _ _ hs.1)
                                · rw [if_neg h16]; exact stepComp_readChar hs

theorem substr_singleton {input : List Char} {p : Nat} {c : Char}
    (h : input.getD p nulChar = c) (hc : c ≠ nulChar) : substr input p 1 = [c] := by
  have hlt : p < input.length := by
    by_contra hge
    push_neg at hge
    rw [List.getD_eq_default _ _ hge] at h
    exact hc h.symm
  unfold substr
  rw [List.drop_eq_getElem_cons hlt, List.take_succ_cons, List.take_zero]
  rw [List.getD_eq_getElem _ _ hlt] at h
  rw [h]

theorem substr_pair {input : List Char} {p : Nat} {c1 c2 : Char}
    (h1 : input.getD p nulChar = c1) (h2 : input.getD (p + 1) nulChar = c2)
    (hc2 : c2 ≠ nulChar) : substr input p 2 = [c1, c2] := by
  have hlt2 : p + 1 < input.length := by
    by_contra hge
    push_neg at hge
    rw [List.getD_eq_default _ _ hge] at h2
    exact hc2 h2.symm
  have hlt : p < input.length := Nat.lt_of_le_of_lt (Nat.le_succ p) hlt2
  have hs : substr input (p + 1) 1 = [c2] := substr_singleton h2 hc2
  unfold substr at hs ⊢
  rw [List.drop_eq_getElem_cons hlt, List.take_succ_cons, hs]
  rw [List.getD_eq_getElem _ _ hlt] at h1
  rw [h1]

theorem readNumber_typ (l : Lexer) (s : Int) :
    (readNumber l s).1.typ = TokType.percent ∨ (readNumber l s).1.typ = TokType.number := by
  unfold readNumber
  dsimp only
  repeat' split
  all_goals first
    | exact Or.inl rfl
    | exact Or.inr rfl

theorem readComment_typ (l : Lexer) (s : Int) :
    (readComment l s).1.typ = TokType.commentTok := rfl

theorem lookupIdentifierTok_cases (str : String) :
    lookupIdentifierTok str = TokType.identifier ∨
    lookupIdentifierTok str = TokType.inTok ∨
    lookupIdentifierTok str = TokType.ofTok := by
  unfold lookupIdentifierTok
  cases hl : lookup keywords str with
  | none => exact Or.inl rfl
  | some t =>
    have hmem := lookup_mem hl
    simp only [keywords, List.mem_cons, List.not_mem_nil, or_false,
      Prod.mk.injEq] at hmem
    rcases hmem with ⟨_, rfl⟩ | ⟨_, rfl⟩ | ⟨_, rfl⟩
    · exact Or.inr (Or.inl rfl)
    · exact Or.inr (Or.inl rfl)
    · exact Or.inr (Or.inr rfl)

theorem readIdentifier_typ (l : Lexer) (s : Int) :
    (readIdentifier l s).1.typ = TokType.identifier ∨
    (readIdentifier l s).1.typ = TokType.inTok ∨
    (readIdentifier l s).1.typ = TokType.ofTok := by
  unfold readIdentifier
  dsimp only
  split
  · exact lookupIdentifierTok_cases _
  · split
    · exact Or.inl rfl
    · exact Or.inl rfl

theorem nextToken_faithful (l : Lexer) (hwf : wfLex l)
    (hk : (nextToken l).1.typ ∈ literalFaithfulKinds) :
    (nextToken l).1.literal.toList
      = substr l.input (nextToken l).1.pos.toNat (nextToken l).1.literal.toList.length := by
  revert hk
  unfold nextToken
  dsimp only
  generalize hgen : skipWhitespace (l.input.length + 1) l = l1
  have hs : stepOK l l1 := hgen ▸ skipWhitespace_step (l.input.length + 1) l hwf
  obtain ⟨⟨hrp, hch⟩, hi1⟩ := hs
  by_cases hnul : l1.ch = nulChar
  · rw [if_pos hnul]
    intro _
    rfl
  · rw [if_neg hnul]
    by_cases hcom : l1.ch = '#' ∨ (l1.ch = '/' ∧ peekChar l1 = '/')
    · rw [if_pos hcom]
      intro hk
      rw [readComment_typ] at hk
      exact absurd hk (by decide)
    · rw [if_neg hcom]
      by_cases hcur : isCurrencySymbolRune l1.ch ∨ isCryptoSymbolRune l1.ch
      · rw [if_pos hcur]
        intro _
        unfold readCurrencySymbol
        dsimp only
        rw [← hi1]
        simp only [Int.toNat_natCast]
        exact (substr_singleton hch.symm hnul).symm
      · rw [if_neg hcur]
        by_cases hnum : isDigit l1.ch ∨ (l1.ch = '.' ∧ isDigit (peekChar l1))
        · rw [if_pos hnum]
          intro hk
          rcases readNumber_typ l1 ↑l1.pos with h | h <;> rw [h] at hk <;>
            exact absurd hk (by decide)
        · rw [if_neg hnum]
          by_cases hplus : l1.ch = '+'
          · rw [if_pos hplus]
            intro _
            dsimp only
            rw [← hi1]
            simp only [Int.toNat_natCast]
            exact (substr_singleton (hch.symm.trans hplus) (by decide)).symm
          · rw [if_neg hplus]
            by_cases hminus : l1.ch = '-'
            · rw [if_pos hminus]
              by_cases hsoe : isDigit (peekChar l1) ∧ isStartOfExpression l1
              · rw [if_pos hsoe]
                intro hk
                rcases readNumber_typ l1 ↑l1.pos with h | h <;> rw [h] at hk <;>
                  exact absurd hk (by decide)
              · rw [if_neg hsoe]
                intro _
                dsimp only
                rw [← hi1]
                simp only [Int.toNat_natCast]
                exact (substr_singleton (hch.symm.trans hminus) (by decide)).symm
            · rw [if_neg hminus]
              by_cases hstar : l1.ch = '*'
              · rw [if_pos hstar]
                by_cases hpk : peekChar l1 = '*'
                · rw [if_pos hpk]
                  intro _
                  dsimp only
                  rw [← hi1]
                  simp only [Int.toNat_natCast]
                  unfold peekChar at hpk
                  rw [hrp] at hpk
                  exact (substr_pair (hch.symm.trans hstar) hpk (by decide)).symm
                · rw [if_neg hpk]
                  intro _
                  dsimp only
                  rw [← hi1]
                  simp only [Int.toNat_natCast]
                  exact (substr_singleton (hch.symm.trans hstar) (by decide)).symm
              · rw [if_neg hstar]
                by_cases hslash : l1.ch = '/'
                · rw [if_pos hslash]
                  intro _
                  dsimp only
                  rw [← hi1]
                  simp only [Int.toNat_natCast]
                  exact (substr_singleton (hch.symm.trans hslash) (by decide)).symm
                · rw [if_neg hslash]
                  by_cases hcaret : l1.ch = '^'
                  · rw [if_pos hcaret]
                    intro _
                    dsimp only
                    rw [← hi1]
                    simp only [Int.toNat_natCast]
                    exact (substr_singleton (hch.symm.trans hcaret) (by decide)).symm
                  · rw [if_neg hcaret]
                    by_cases hlp : l1.ch = '('
                    · rw [if_pos hlp]
                      intro _
                      dsimp only
                      rw [← hi1]
                      simp only [Int.toNat_natCast]
                      exact (substr_singleton (hch.symm.trans hlp) (by decide)).symm
                    · rw [if_neg hlp]
                      by_cases hrpn : l1.ch = ')'
                      · rw [if_pos hrpn]
                        intro _
                        dsimp only
                        rw [← hi1]
                        simp only [Int.toNat_natCast]
                        exact (substr_singleton (hch.symm.trans hrpn) (by decide)).symm
                      · rw [if_neg hrpn]
                        by_cases heq : l1.ch = '='
                        · rw [if_pos heq]
                          intro _
                          dsimp only
                          rw [← hi1]
                          simp only [Int.toNat_natCast]
                          exact (substr_singleton (hch.symm.trans heq) (by decide)).symm
                        · rw [if_neg heq]
                          by_cases hcm : l1.ch = ','
                          · rw [if_pos hcm]
                            intro _
                            dsimp only
                            rw [← hi1]
                            simp only [Int.toNat_natCast]
                            exact (substr_singleton (hch.symm.trans hcm) (by decide)).symm
                          · rw [if_neg hcm]
                            by_cases hpc : l1.ch = '%'
                            · rw [if_pos hpc]
                              intro hk
                              dsimp only at hk
                              exact absurd hk (by decide)
                            · rw [if_neg hpc]
                              by_cases hnl : l1.ch = '\n'
                              · rw [if_pos hnl]
                                intro _
                                dsimp only
                                rw [← hi1]
                                simp only [Int.toNat_natCast]
                                exact (substr_singleton (hch.symm.trans hnl) (by decide)).symm
                              · rw [if_neg hnl]
                                by_cases hid : isLetter l1.ch ∨ l1.ch = '_'
                                · rw [if_pos hid]
                                  intro hk
                                  rcases readIdentifier_typ l1 ↑l1.pos with h | h | h <;>
                                    rw [h] at hk <;> exact absurd hk (by decide)
                                · rw [if_neg hid]
                                  intro _
                                  dsimp only
                                  rw [← hi1]
                                  simp only [Int.toNat_natCast]
                                  exact (substr_singleton hch.symm hnul).symm

theorem tokenizeAux_faithful : ∀ (fuel : Nat) (l : Lexer), wfLex l →
    ∀ t ∈ tokenizeAux fuel l, t.typ ∈ literalFaithfulKinds →
      t.literal.toList = substr l.input t.pos.toNat t.literal.toList.length := by
  intro fuel
  induction fuel with
  | zero => intro l _ t ht; simp [tokenizeAux] at ht
  | succ n ih =>
    intro l hwf t ht hk
    simp only [tokenizeAux] at ht
    by_cases he : (nextToken l).1.typ = TokType.eof
    · rw [if_pos he] at ht
      simp only [List.mem_singleton] at ht
      subst ht
      exact nextToken_faithful l hwf hk
    · rw [if_neg he] at ht
      rcases List.mem_cons.mp ht with rfl | ht'
      · exact nextToken_faithful l hwf hk
      · have hstep := nextToken_step l hwf
        have hrec := ih (nextToken l).2 hstep.1 t ht' hk
        rwa [hstep.2] at hrec

/-- Counterexample for claim C9 as stated: lexing `1,234` yields a
NUMBER token whose literal `1234` has the thousands separator stripped,
so the literal at its recorded position does not reproduce the input
substring (`1,23`). -/
theorem lexRoundTrip_cex :
    tokenize ("1,234".toList) = [⟨TokType.number, "1234", 0⟩, ⟨TokType.eof, "", 5⟩] ∧
    ¬ ((⟨TokType.number, "1234", 0⟩ : Token).literal.toList
        = substr ("1,234".toList) (⟨TokType.number, "1234", 0⟩ : Token).pos.toNat
            (⟨TokType.number, "1234", 0⟩ : Token).literal.toList.length) :=
  ⟨by rfl, by decide⟩

/-- Claim C9 (amended): the literal-at-position round-trip holds for
every token of a kind whose literal is emitted verbatim (operators,
punctuation, newline, currency symbols, illegal characters, EOF), for
every input; NUMBER and PERCENT literals can drop thousands separators,
and multi-word IDENTIFIER literals can collapse whitespace, so those
kinds are excluded. -/
theorem lexRoundTripFaithful (input : List Char) (t : Token)
    (ht : t ∈ tokenize input) (hk : t.typ ∈ literalFaithfulKinds) :
    t.literal.toList = substr input t.pos.toNat t.literal.toList.length := by
  have h0 := readChar_step
    { input := input, pos := 0, readPos := 0, ch := nulChar, line := 1, col := 0 }
  have hres := tokenizeAux_faithful (input.length + 2) (lexNew input) h0.1 t ht hk
  rwa [show (lexNew input).input = input from h0.2] at hres

/-- Witness for the C9 theorem: the `+` token of `a+b` at position 1. -/
theorem lexRoundTripFaithful_witness :
    (⟨TokType.plus, "+", 1⟩ : Token) ∈ tokenize ("a+b".toList) ∧
    "+".toList = substr ("a+b".toList) ((1 : Int)).toNat ("+".toList.length) :=
  ⟨by decide,
   lexRoundTripFaithful ("a+b".toList) ⟨TokType.plus, "+", 1⟩ (by decide) (by decide)⟩

end Numio
